import Mathlib

/-!
# Verification of the espressif mDNS responder (mdns.c) against its specification

Shallow embedding of `src/light/managed_components/espressif__mdns/mdns.c`.
Packets are byte lists (`List Nat`, each < 256 where written by the code),
C strings are `List Char` (`none` models a NULL pointer), and the intrusive
linked lists of the source are Lean lists.  Numeric constants that live in
the component's header files (which are not part of this repository snapshot)
are modelled from the spec and marked as such.
-/

namespace Mdns

/-! ## Byte and string helpers -/

/-- ASCII lower-casing of one byte, as C `tolower` behaves on ASCII input. -/
def lowerByte (b : Nat) : Nat :=
  if 65 ≤ b ∧ b ≤ 90 then b + 32 else b

/-- Case-insensitive equality of byte strings: `strcasecmp(a, b) == 0`. -/
def caseEqBytes (a b : List Nat) : Bool :=
  a.map lowerByte == b.map lowerByte

/-- Reading one byte of the packet buffer.  The C code reads from a fixed
`uint8_t` array; positions beyond the modelled content are stale buffer
bytes, modelled here as `0`. -/
def byteAt (packet : List Nat) (i : Nat) : Nat :=
  packet.getD i 0

/-! ## Constants

`MDNS_MAX_PACKET_SIZE`, `MDNS_NAME_BUF_LEN`, the record-type codes, default
TTLs, header offsets and flags are defined in `mdns_private.h` / `mdns.h`,
which are not under `src/`. -/

/-- Modelled from the spec: maximum UDP payload, spec §6 ("max datagram 1460
bytes"); `MDNS_MAX_PACKET_SIZE` in the missing header. -/
def MDNS_MAX_PACKET_SIZE : Nat := 1460

/-- Modelled from the spec: `name_buf_len` (default 64), spec §6;
`MDNS_NAME_BUF_LEN` in the missing header. -/
def MDNS_NAME_BUF_LEN : Nat := 64

/-- Modelled from the spec: compression-pointer marker, the top two bits of a
length byte being `11` (spec §4.1); `MDNS_NAME_REF = 0xC000` in the missing
header. -/
def MDNS_NAME_REF : Nat := 0xC000

/-- Modelled from the spec: default PTR TTL, spec S4 scenario ("TTL > 2250
(half of 4500)"); `MDNS_ANSWER_PTR_TTL = 4500` in the missing header. -/
def MDNS_ANSWER_PTR_TTL : Nat := 4500

/-- Modelled from the spec: mDNS UDP port 5353 (spec §6);
`MDNS_SERVICE_PORT` in the missing header. -/
def MDNS_SERVICE_PORT : Nat := 5353

/-- Standard DNS record-type codes (spec §4.1 record types; `MDNS_TYPE_*` in
the missing header). -/
def MDNS_TYPE_A : Nat := 0x0001

def MDNS_TYPE_PTR : Nat := 0x000C

def MDNS_TYPE_TXT : Nat := 0x0010

def MDNS_TYPE_AAAA : Nat := 0x001C

def MDNS_TYPE_SRV : Nat := 0x0021

def MDNS_TYPE_ANY : Nat := 0x00FF

/-- Modelled from the spec: the synthetic service-discovery PTR type
(spec §4.1, "synthetic SDPTR"); `MDNS_TYPE_SDPTR` in the missing header. -/
def MDNS_TYPE_SDPTR : Nat := 0x0032

/-! ## Name decoding: `_mdns_read_fqdn` (mdns.c lines 450-501)

`mdns_name_t` holds four 64-byte fields laid out in order host, service,
proto, domain (the encoder's search at line 784 indexes the struct by
`i * MDNS_NAME_BUF_LEN`). -/

structure MdnsName where
  host : List Nat
  service : List Nat
  proto : List Nat
  domain : List Nat
  parts : Nat
  sub : Bool
  invalid : Bool
deriving DecidableEq

def emptyMdnsName : MdnsName :=
  { host := [], service := [], proto := [], domain := [], parts := 0,
    sub := false, invalid := false }

/-- The byte strings compared against labels: `"local"`, `"arpa"`, `"ip6"`,
`"in-addr"`, `"_sub"`. -/
def localBytes : List Nat := [108, 111, 99, 97, 108]

def arpaBytes : List Nat := [97, 114, 112, 97]

def ip6Bytes : List Nat := [105, 112, 54]

def inAddrBytes : List Nat := [105, 110, 45, 97, 100, 100, 114]

def subBytes : List Nat := [95, 115, 117, 98]

/-- `strlcat(dst, src, MDNS_NAME_BUF_LEN)`: append, truncating the result to
63 bytes. -/
def strlcat64 (dst src : List Nat) : List Nat :=
  dst ++ src.take (63 - dst.length)

/-- `mdns_name_ptrs[name->parts++] = buf` (line 485-486): store the label in
the field selected by `parts`.  The C code only reaches this with
`parts < 4` (at `parts == 4` the `invalid` flag was set, which guards the
store), so the catch-all branch is unreachable. -/
def setNamePart (n : MdnsName) (buf : List Nat) : MdnsName :=
  match n.parts with
  | 0 => { n with host := buf, parts := 1 }
  | 1 => { n with service := buf, parts := 2 }
  | 2 => { n with proto := buf, parts := 3 }
  | 3 => { n with domain := buf, parts := 4 }
  | _ => n

/-- Per-label bookkeeping of `_mdns_read_fqdn` (lines 472-487), with the
reverse-lookup configuration disabled (its spec default), so the `"ip6"` and
`"in-addr"` comparisons are compiled in. -/
def applyLabel (n : MdnsName) (buf : List Nat) : MdnsName :=
  if n.parts == 1 && buf.headD 0 != 95 && !caseEqBytes buf localBytes &&
      !caseEqBytes buf arpaBytes && !caseEqBytes buf ip6Bytes &&
      !caseEqBytes buf inAddrBytes then
    { n with host := strlcat64 (strlcat64 n.host [46]) buf }
  else if caseEqBytes buf subBytes then
    { n with sub := true }
  else if !n.invalid then
    setNamePart n buf
  else
    n

/-- Label-byte copy loop (lines 464-470): each byte read is guarded by
`start + index >= packet_end`. -/
def readLabel (packet : List Nat) (plen pos len : Nat) : Option (List Nat) :=
  if pos + len ≤ plen then
    some ((List.range len).map fun k => byteAt packet (pos + k))
  else
    none

/-- `_mdns_read_fqdn` (lines 450-501).  `startOff` is the offset of `start`
within the packet and `idx` the C `index` variable.  A length byte with the
top two bits set is a compression pointer; its target must lie strictly
before `start` (line 490), which makes the recursion well-founded: the
function is total, so decoding always terminates.  The second pointer byte
is read without a bounds check in C (line 489); reading past the packet is
modelled as reading `0`. -/
def readFqdnAux (packet : List Nat) (plen startOff idx : Nat) (name : MdnsName) :
    Option (Nat × MdnsName) :=
  if hloop : startOff + idx < plen ∧ byteAt packet (startOff + idx) ≠ 0 then
    let name1 := if name.parts == 4 then { name with invalid := true } else name
    let len := byteAt packet (startOff + idx)
    if len < 192 then
      if 63 < len then
        none
      else
        match readLabel packet plen (startOff + idx + 1) len with
        | none => none
        | some buf =>
            readFqdnAux packet plen startOff (idx + 1 + len) (applyLabel name1 buf)
    else
      let addr := ((byteAt packet (startOff + idx) &&& 63) <<< 8) |||
        byteAt packet (startOff + idx + 1)
      if startOff ≤ addr then
        none
      else
        match readFqdnAux packet plen addr 0 name1 with
        | some r => some (startOff + idx + 2, r.2)
        | none => none
  else
    some (startOff + idx + 1, name)
termination_by (startOff, plen - idx)
decreasing_by
  · exact Prod.Lex.right startOff (by omega)
  · exact Prod.Lex.left _ _ (by omega)

/-- `_mdns_read_fqdn(packet, start, name, buf, packet_len)`. -/
def readFqdn (packet : List Nat) (plen startOff : Nat) (name : MdnsName) :
    Option (Nat × MdnsName) :=
  readFqdnAux packet plen startOff 0 name

/-! ## Name encoding: `_mdns_append_fqdn` (mdns.c lines 748-809)

The packet under construction is the list of bytes written so far, so the
write index `*index` is `packet.length`.  Each append helper returns the new
buffer together with the C return value (0 on error). -/

/-- `_mdns_append_u8` (lines 528-536). -/
def appendU8 (packet : List Nat) (v : Nat) : List Nat × Nat :=
  if MDNS_MAX_PACKET_SIZE ≤ packet.length then
    (packet, 0)
  else
    (packet ++ [v % 256], 1)

/-- `_mdns_append_u16` (lines 547-555). -/
def appendU16 (packet : List Nat) (v : Nat) : List Nat × Nat :=
  if MDNS_MAX_PACKET_SIZE ≤ packet.length + 1 then
    (packet, 0)
  else
    (packet ++ [(v >>> 8) &&& 255, v &&& 255], 2)

/-- `_mdns_append_string` (lines 640-650); `uint8_t len = strlen(string)`
truncates the length to a byte, and the returned `len + 1` is a `uint8_t`
as well. -/
def appendString (packet : List Nat) (s : List Nat) : List Nat × Nat :=
  let len := s.length % 256
  if MDNS_MAX_PACKET_SIZE ≤ packet.length + len + 1 then
    (packet, 0)
  else
    (packet ++ [len] ++ s.take len, (len + 1) % 256)

/-- `memcmp(len_location + 1, strings[0], len) == 0` (line 761). -/
def memEqAt (packet : List Nat) (p : Nat) (s : List Nat) (len : Nat) : Bool :=
  decide ((List.range len).map (fun k => byteAt packet (p + k)) = s.take len)

/-- `(const char *)&name + (i * MDNS_NAME_BUF_LEN)` (line 784): the fields of
`mdns_name_t` in declaration order. -/
def nameFieldAt (n : MdnsName) (i : Nat) : List Nat :=
  match i with
  | 0 => n.host
  | 1 => n.service
  | 2 => n.proto
  | _ => n.domain

/-- Lines 769-793: read the candidate FQDN at `p` into a fresh name and
compare all parts case-insensitively with the strings being appended. -/
def fqdnReadMatches (packet : List Nat) (plen p : Nat) (strings : List (List Nat)) : Bool :=
  match readFqdnAux packet plen p 0 emptyMdnsName with
  | none => false
  | some r =>
      r.2.parts == strings.length &&
        (List.range strings.length).all fun i =>
          caseEqBytes (strings.getD i []) (nameFieldAt r.2 i)

/-- The `memchr` search loop of `_mdns_append_fqdn` (lines 757-794): scan the
already-written bytes `[p, packet.length)` for a length byte equal to `len`
whose following bytes and whole readable FQDN match `strings`.  `rem` is the
number of positions still to inspect. -/
def findFqdnLocGo (packet : List Nat) (plen len : Nat) (strings : List (List Nat)) :
    Nat → Nat → Option Nat
  | 0, _ => none
  | rem + 1, p =>
    if p < packet.length then
      if byteAt packet p == len && memEqAt packet (p + 1) (strings.headD []) len &&
          fqdnReadMatches packet plen p strings then
        some p
      else
        findFqdnLocGo packet plen len strings rem (p + 1)
    else
      none

/-- The compression search of `_mdns_append_fqdn`: only bytes before the
current write index (`*index`, i.e. `packet.length`) are searched. -/
def findFqdnLoc (packet : List Nat) (plen len : Nat) (strings : List (List Nat)) :
    Option Nat :=
  findFqdnLocGo packet plen len strings packet.length 0

/-- `_mdns_append_fqdn` (lines 748-809).  Returns the grown packet, a ghost
log of emitted compression pointers as `(write index, target offset)` pairs,
and the C return value.  When a previous occurrence is found, a 16-bit
pointer `offset | MDNS_NAME_REF` is appended; otherwise the first label is
written and the function recurses on the remaining labels (note that, as in
the C code, an error of the recursive call is swallowed by the addition of
the already-written length). -/
def appendFqdn (packet : List Nat) (strings : List (List Nat)) (plen : Nat) :
    List Nat × List (Nat × Nat) × Nat :=
  match strings with
  | [] =>
      let res := appendU8 packet 0
      (res.1, [], res.2)
  | s :: rest =>
      let len := s.length % 256
      match findFqdnLoc packet plen len (s :: rest) with
      | some p =>
          let res := appendU16 packet (MDNS_NAME_REF ||| p)
          (res.1, if res.2 == 0 then [] else [(packet.length, p)], res.2)
      | none =>
          let res := appendString packet s
          if res.2 == 0 then
            (res.1, [], 0)
          else
            let rec2 := appendFqdn res.1 rest plen
            (rec2.1, rec2.2.1, res.2 + rec2.2.2)

/-! ## The scheduled tx queue: `_mdns_schedule_tx_packet` (mdns.c lines 1586-1604)

Only the fields that participate in scheduling are modelled; `pid` is a ghost
identity standing for the C packet pointer. -/

structure TxPacket where
  pid : Nat
  sendAt : Nat
deriving DecidableEq

/-- The walk `while (q->next && q->next->send_at <= packet->send_at)`
(lines 1598-1603): `q` is the node the cursor stands on, the list is what
follows it. -/
def txInsertTail (p q : TxPacket) : List TxPacket → List TxPacket
  | [] => [q, p]
  | r :: rs =>
    if r.sendAt ≤ p.sendAt then
      q :: txInsertTail p r rs
    else
      q :: p :: r :: rs

/-- `_mdns_schedule_tx_packet(packet, ms_after)`: stamp
`send_at = now + ms_after` and insert into the queue; a packet goes in front
only of nodes with a strictly larger `send_at` (lines 1591-1603). -/
def scheduleTxPacket (queue : List TxPacket) (p : TxPacket) (now msAfter : Nat) :
    List TxPacket :=
  let p2 := { p with sendAt := now + msAfter }
  match queue with
  | [] => [p2]
  | h :: t =>
    if p2.sendAt < h.sendAt then
      p2 :: h :: t
    else
      txInsertTail p2 h t

/-- The queue invariant: `send_at` non-decreasing from head to tail. -/
def txQueueSorted (queue : List TxPacket) : Prop :=
  List.Chain' (fun a b => a.sendAt ≤ b.sendAt) queue

/-! ## The per-PCB responder state machine (C2)

The state enumeration `mdns_pcb_state_t` lives in the missing header.
Modelled from the spec: states `OFF, DUP, INIT, PROBE_1..3, ANNOUNCE_1..3,
RUNNING` in this numeric order (spec §3 and §4.3); `_mdns_tx_handle_packet`
advances through the probe and announce chains by `state + 1`. -/

inductive PcbState
  | off
  | dup
  | init
  | probe1
  | probe2
  | probe3
  | announce1
  | announce2
  | announce3
  | running
deriving DecidableEq, Fintype

def PcbState.toNat : PcbState → Nat
  | .off => 0
  | .dup => 1
  | .init => 2
  | .probe1 => 3
  | .probe2 => 4
  | .probe3 => 5
  | .announce1 => 6
  | .announce2 => 7
  | .announce3 => 8
  | .running => 9

/-- `PCB_STATE_IS_PROBING`: `PCB_OFF < state < PCB_ANNOUNCE_1`. -/
def isProbing (s : PcbState) : Bool :=
  0 < s.toNat && s.toNat < 6

/-- `PCB_STATE_IS_ANNOUNCING`: `PCB_PROBE_3 < state < PCB_RUNNING`. -/
def isAnnouncing (s : PcbState) : Bool :=
  5 < s.toNat && s.toNat < 9

/-- `_mdns_init_pcb_probe` (lines 2314-2349) together with
`_mdns_init_pcb_probe_new_service` (lines 2258-2305), state component only:
with a null or empty hostname the PCB is put straight into `RUNNING`
(lines 2320-2323); otherwise, if the probe packet could be allocated, the
PCB enters `PROBE_1` (line 2304), and on allocation failure the state is
left unchanged (lines 2294-2297). -/
def initPcbProbeStep (hostnameSet packetOk : Bool) (s : PcbState) : PcbState :=
  if !hostnameSet then
    .running
  else if packetOk then
    .probe1
  else
    s

/-- The `switch (pcb->state)` of `_mdns_tx_handle_packet` (lines 5094-5149):
`PROBE_1`/`PROBE_2` advance by one, `PROBE_3` becomes `ANNOUNCE_1` when the
announcement packet could be created (falling through to the announce arm's
`state + 1`) and stays at `PROBE_3` otherwise, `ANNOUNCE_1`/`ANNOUNCE_2`
advance by one, `ANNOUNCE_3` becomes `RUNNING`; every other state only frees
the packet. -/
def txHandleStep (announceOk : Bool) (s : PcbState) : PcbState :=
  match s with
  | .probe1 => .probe2
  | .probe2 => .probe3
  | .probe3 => if announceOk then .announce1 else .probe3
  | .announce1 => .announce2
  | .announce2 => .announce3
  | .announce3 => .running
  | other => other

/-- `_mdns_announce_pcb` (lines 2449-2487), state component, assuming the
interface is ready: a probing PCB re-enters probe init; an announcing PCB
with a pending packet is reset to `ANNOUNCE_1`; a `RUNNING` PCB with a
non-empty hostname is set to `ANNOUNCE_1` (line 2480, even if the packet
allocation afterwards fails). -/
def announcePcbStep (packetWaiting hostnameSet packetOk : Bool) (s : PcbState) :
    PcbState :=
  if isProbing s then
    initPcbProbeStep hostnameSet packetOk s
  else if isAnnouncing s then
    if packetWaiting then .announce1 else s
  else if s == .running then
    if hostnameSet then .announce1 else s
  else
    s

/-- The events that drive one PCB's state.  `enable` is
`_mdns_enable_pcb` → `_mdns_restart_pcb` → `_mdns_init_pcb_probe`
(lines 4354-4363); `disable` is `_mdns_disable_pcb` (line 4381);
`dupDetected` is `_mdns_dup_interface` (line 3042);
`removeLastProbeService` is the shortcut of
`_mdns_remove_scheduled_service_packets` that promotes a probing PCB whose
last probe service was removed and `probe_ip` is unset (lines 2813-2820);
`removeClearedAnnounceAnswers` is its announcing counterpart
(lines 2844-2848). -/
inductive PcbEvent
  | txHandle (announceOk : Bool)
  | initProbe (hostnameSet packetOk : Bool)
  | enable (hostnameSet packetOk : Bool)
  | announce (packetWaiting hostnameSet packetOk : Bool)
  | disable
  | dupDetected
  | removeLastProbeService (probeIp : Bool)
  | removeClearedAnnounceAnswers
deriving DecidableEq, Fintype

def pcbStep (s : PcbState) : PcbEvent → PcbState
  | .txHandle ok => txHandleStep ok s
  | .initProbe h p => initPcbProbeStep h p s
  | .enable h p => initPcbProbeStep h p s
  | .announce w h p => announcePcbStep w h p s
  | .disable => .off
  | .dupDetected => .dup
  | .removeLastProbeService probeIp =>
      if isProbing s && !probeIp then .running else s
  | .removeClearedAnnounceAnswers =>
      if isAnnouncing s then .running else s

/-- The PCB state after a sequence of events. -/
def pcbRun (s : PcbState) (es : List PcbEvent) : PcbState :=
  es.foldl pcbStep s

/-- All states visited along a sequence of events (the start included). -/
def pcbTrace (s : PcbState) : List PcbEvent → List PcbState
  | [] => [s]
  | e :: es => s :: pcbTrace (pcbStep s e) es

/-- The events allowed by the amended C2: the hostname stays set and no
service removal fires the probing shortcut. -/
def probeRespectingEvent : PcbEvent → Bool
  | .initProbe h _ => h
  | .enable h _ => h
  | .announce _ h _ => h
  | .removeLastProbeService _ => false
  | _ => true

/-- The states at or beyond the announcement phase. -/
def isPost (s : PcbState) : Bool :=
  s == .announce1 || s == .announce2 || s == .announce3 || s == .running

/-! ## Name mangling: `_mdns_mangle_name` (mdns.c lines 230-268) -/

def isSpaceChar (c : Char) : Bool :=
  c == ' ' || c == '\t' || c == '\n' || c == '\x0b' || c == '\x0c' || c == '\r'

def isDigitChar (c : Char) : Bool :=
  48 ≤ c.toNat && c.toNat ≤ 57

def digitsVal (ds : List Char) : Nat :=
  ds.foldl (fun a c => a * 10 + (c.toNat - 48)) 0

/-- `LONG_MAX` on the 32-bit target: `long` is 32 bits, so `2^31 - 1`. -/
def LONG_MAX : Int := 2147483647

/-- `LONG_MIN` on the 32-bit target: `-2^31`. -/
def LONG_MIN : Int := -2147483648

/-- Two's-complement wrap of a 32-bit `int` computation into
`[-2^31, 2^31)`: what `suffix + 1` (line 265) produces when it overflows. -/
def wrap32 (z : Int) : Int :=
  (z + 2147483648) % 4294967296 - 2147483648

/-- `strtol(s, &endp, 10)`: skip whitespace, an optional sign, then digits;
returns the value and the index `endp - s` (0 when no digits were consumed,
in which case the value is 0).  An out-of-range value is clamped to
`LONG_MAX` / `LONG_MIN` (`long` is 32 bits on this target); `endp` still
points past all consumed digits. -/
def cStrtol (s : List Char) : Int × Nat :=
  let ws := (s.takeWhile isSpaceChar).length
  let sgn : Int × Nat :=
    if s.getD ws ' ' = '-' then (-1, 1)
    else if s.getD ws ' ' = '+' then (1, 1)
    else (1, 0)
  let digs := (s.drop (ws + sgn.2)).takeWhile isDigitChar
  if digs.isEmpty then
    (0, 0)
  else
    let v := sgn.1 * (digitsVal digs : Int)
    (if v < LONG_MIN then LONG_MIN else if LONG_MAX < v then LONG_MAX else v,
      ws + sgn.2 + digs.length)

/-- `strrchr`: index of the last occurrence of `'-'`. -/
def lastDashIdx : List Char → Option Nat
  | [] => none
  | c :: cs =>
    match lastDashIdx cs with
    | some j => some (j + 1)
    | none => if c = '-' then some 0 else none

/-- `_mdns_mangle_name` (lines 230-268): if the input has no `'-'`, or the
text after the last `'-'` does not fully parse as a number, append `"-2"` to
the whole string; otherwise replace the parsed suffix `N` by `N + 1`
(`sprintf(ret + baseLen, "-%d", suffix + 1)`, an `int` addition that wraps
at `2^31`, on a value `strtol` already clamped to the 32-bit `long` range).
Allocation is modelled as succeeding.  No length check or truncation is
performed. -/
def mangleName (inp : List Char) : List Char :=
  match lastDashIdx inp with
  | none => inp ++ ['-', '2']
  | some di =>
    let tl := inp.drop (di + 1)
    let parsed := cStrtol tl
    if parsed.2 ≠ tl.length then
      inp ++ ['-', '2']
    else
      inp.take di ++ '-' :: (Int.repr (wrap32 (parsed.1 + 1))).data

/-! ## The data-model store: services, hostnames, errors (C3, C4, C9)

C strings become `Option (List Char)` (`none` is a NULL pointer). -/

/-- `_str_null_or_empty` (lines 222-225). -/
def strNullOrEmpty : Option (List Char) → Bool
  | none => true
  | some s => s.isEmpty

/-- `strcasecmp(a, b) == 0` on chars. -/
def strcaseEq (a b : List Char) : Bool :=
  a.map Char.toLower == b.map Char.toLower

/-- `strcasecmp` on possibly-NULL strings.  The C code would dereference a
NULL pointer here (undefined behaviour); the model returns `false`, and every
claim settled below stays away from those inputs. -/
def strcaseEqOpt : Option (List Char) → Option (List Char) → Bool
  | some a, some b => strcaseEq a b
  | _, _ => false

/-- `mdns_service_t`, fields the claims touch (`instance`, `service`,
`proto`, `hostname`, `port`, subtype list). -/
structure MService where
  instName : Option (List Char)
  service : List Char
  proto : List Char
  hostname : Option (List Char)
  port : Nat
  subtypes : List (List Char)
deriving DecidableEq

/-- One per-interface protocol control block, the fields read by the
transmit paths modelled here. -/
structure Pcb where
  ready : Bool
  state : PcbState
deriving DecidableEq

/-- The process-wide `mdns_server_t`, fields the claims touch. -/
structure Server where
  hostname : Option (List Char)
  instName : Option (List Char)
  services : List MService
  delegatedHosts : List (List Char)
  pcbs : List Pcb
deriving DecidableEq

/-- Modelled from the spec: `max_services` bound (spec §6,
`CONFIG_MDNS_MAX_SERVICES` in the missing configuration). -/
def MDNS_MAX_SERVICES : Nat := 16

/-- The error codes surfaced by the API (`esp_err_t` values used by mdns.c). -/
inductive EspErr
  | ok
  | invalidArg
  | invalidState
  | notFound
  | noMem
deriving DecidableEq

/-- `_mdns_get_default_instance_name` (lines 371-382). -/
def getDefaultInstanceName (srv : Server) : Option (List Char) :=
  if !strNullOrEmpty srv.instName then
    srv.instName
  else if !strNullOrEmpty srv.hostname then
    srv.hostname
  else
    none

/-- `_mdns_get_service_instance_name` (lines 387-394). -/
def getServiceInstanceName (srv : Server) (s : MService) : Option (List Char) :=
  if !strNullOrEmpty s.instName then
    s.instName
  else
    getDefaultInstanceName srv

/-- `_mdns_instance_name_match` (lines 396-405): a NULL side is replaced by
the default instance name before the case-insensitive comparison. -/
def instanceNameMatch (srv : Server) (lhs rhs : Option (List Char)) : Bool :=
  let l := match lhs with | none => getDefaultInstanceName srv | some v => some v
  let r := match rhs with | none => getDefaultInstanceName srv | some v => some v
  strcaseEqOpt l r

/-- `_mdns_service_match` (lines 270-278). -/
def serviceMatch (s : MService) (service proto hostname : Option (List Char)) : Bool :=
  match service, proto, s.hostname with
  | some sv, some pr, some _ =>
      strcaseEq s.service sv && strcaseEq s.proto pr &&
        (strNullOrEmpty hostname || strcaseEqOpt s.hostname hostname)
  | _, _, _ => false

/-- `_mdns_service_match_instance` (lines 407-418). -/
def serviceMatchInstance (srv : Server) (s : MService)
    (instN service proto hostname : Option (List Char)) : Bool :=
  match service, proto with
  | some sv, some pr =>
      strcaseEq s.service sv && instanceNameMatch srv s.instName instN &&
        strcaseEq s.proto pr &&
        (strNullOrEmpty hostname || strcaseEqOpt s.hostname hostname)
  | _, _ => false

/-- `_mdns_get_service_item` (lines 289-299). -/
def getServiceItem (srv : Server) (service proto hostname : Option (List Char)) :
    Option MService :=
  srv.services.find? fun s => serviceMatch s service proto hostname

/-- Index of the first list entry satisfying `p` (the C list walks). -/
def findMatchIdx (p : α → Bool) : List α → Option Nat
  | [] => none
  | x :: xs => if p x then some 0 else (findMatchIdx p xs).map (· + 1)

/-- The per-node predicate of `_mdns_get_service_item_instance`
(lines 424-433): with a non-NULL instance the instance-aware match is used,
otherwise the plain match. -/
def serviceNodeMatch (srv : Server) (instN service proto hostname : Option (List Char))
    (s : MService) : Bool :=
  match instN with
  | some _ => serviceMatchInstance srv s instN service proto hostname
  | none => serviceMatch s service proto hostname

/-- The walk of `_mdns_get_service_item_instance` (lines 420-437), as the
index of the first matching node (the index models the C pointer identity). -/
def findServiceIdx (srv : Server) (instN service proto hostname : Option (List Char)) :
    Option Nat :=
  findMatchIdx (serviceNodeMatch srv instN service proto hostname) srv.services

/-- `mdns_service_exists` (lines 6013-6020). -/
def serviceExists (srv : Server) (serviceType proto hostname : Option (List Char)) :
    Bool :=
  (getServiceItem srv serviceType proto hostname).isSome

/-- `_mdns_can_add_more_services` (lines 334-350). -/
def canAddMoreServices (srv : Server) : Bool :=
  srv.services.length < MDNS_MAX_SERVICES

/-- `_mdns_create_service` string handling (lines 2710-2740): every stored
string is `strndup(.., MDNS_NAME_BUF_LEN - 1)`, i.e. truncated to 63
characters; the subtype list starts empty. -/
def createService (service proto hostname : List Char) (port : Nat)
    (instN : Option (List Char)) : MService :=
  { instName := instN.map (fun i => i.take 63),
    service := service.take 63,
    proto := proto.take 63,
    hostname := some (hostname.take 63),
    port := port,
    subtypes := [] }

/-- `_mdns_probe_all_pcbs(services, len, false, false)` (lines 2492-2509),
state component: every ready PCB goes through `_mdns_init_pcb_probe`
(allocation modelled as succeeding). -/
def probeAllPcbs (srv : Server) : Server :=
  { srv with
    pcbs := srv.pcbs.map fun p =>
      if p.ready then
        { p with state := initPcbProbeStep (!strNullOrEmpty srv.hostname) true p.state }
      else
        p }

/-- `mdns_service_add_for_host` (lines 5962-6002).  The server is modelled
as initialized and allocation as succeeding; the new service item is pushed
to the front of the list (lines 5989-5990) and probing is restarted on all
PCBs (line 5991). -/
def serviceAddForHost (srv : Server) (instN service proto host : Option (List Char))
    (port : Nat) : EspErr × Server :=
  if strNullOrEmpty service || strNullOrEmpty proto || srv.hostname.isNone then
    (.invalidArg, srv)
  else
    let hostname : List Char :=
      match host with
      | some h => h
      | none => srv.hostname.getD []
    if !canAddMoreServices srv then
      (.noMem, srv)
    else if (findServiceIdx srv instN service proto (some hostname)).isSome then
      (.invalidArg, srv)
    else
      let s := createService (service.getD []) (proto.getD []) hostname port instN
      (.ok, probeAllPcbs { srv with services := s :: srv.services })

/-! ## Outbound answers, bye packets (C3, C9) -/

/-- The identity of a host item as returned by `mdns_get_host_item`
(lines 319-332): the self-host sentinel, a delegated host (by list index),
or NULL when the hostname is unknown. -/
inductive HostRef
  | selfHost
  | delegated (i : Nat)
deriving DecidableEq

/-- `mdns_get_host_item` (lines 319-332). -/
def getHostItem (srv : Server) (hostname : Option (List Char)) : Option HostRef :=
  match hostname with
  | none => some .selfHost
  | some h =>
    if strcaseEqOpt (some h) srv.hostname then
      some .selfHost
    else
      (srv.delegatedHosts.findIdx? fun d => strcaseEq d h).map .delegated

/-- One node of an outbound answer list (`mdns_out_answer_t`); services are
referenced by their index in `services` (the C pointer identity). -/
structure OutAnswer where
  atype : Nat
  svcIdx : Option Nat
  hostRef : Option HostRef
  flush : Bool
  bye : Bool
deriving DecidableEq

/-- `_mdns_alloc_answer` (lines 1731-1756): skip when an entry with the same
type, service and host already exists, otherwise append at the end. -/
def allocAnswer (lst : List OutAnswer) (a : OutAnswer) : List OutAnswer :=
  if lst.any fun d => d.atype == a.atype && d.svcIdx == a.svcIdx &&
      d.hostRef == a.hostRef then
    lst
  else
    lst ++ [a]

/-- The TTL serialized for a PTR record by `_mdns_append_ptr_record`
(line 842): `bye ? 0 : MDNS_ANSWER_PTR_TTL`. -/
def ptrRecordTtl (bye : Bool) : Nat :=
  if bye then 0 else MDNS_ANSWER_PTR_TTL

/-- A transmission produced by the packet paths: either written to the UDP
socket on the spot (`_mdns_dispatch_tx_packet`) or placed in the scheduled
queue (`_mdns_schedule_tx_packet`). -/
inductive TxEffect
  | dispatched (answers : List OutAnswer)
  | scheduled (answers : List OutAnswer) (msAfter : Nat)
deriving DecidableEq

/-- `_mdns_pcb_send_bye` (lines 2234-2253) with `include_ip = false`: build
a packet whose answers are one `PTR` record per service with
`flush = true, bye = true`, then dispatch it immediately (line 2251) —
it is never placed in the scheduled queue. -/
def pcbSendBye (svcIdxs : List Nat) : TxEffect :=
  .dispatched (svcIdxs.foldl
    (fun acc i => allocAnswer acc
      { atype := MDNS_TYPE_PTR, svcIdx := some i, hostRef := none,
        flush := true, bye := true })
    [])

/-- `_mdns_send_bye` (lines 2380-2394): nothing with a null/empty hostname;
otherwise one immediate bye packet per ready PCB in state `RUNNING`. -/
def sendBye (srv : Server) (svcIdxs : List Nat) : List TxEffect :=
  if strNullOrEmpty srv.hostname then
    []
  else
    (srv.pcbs.filter fun p => p.ready && p.state == PcbState.running).map
      fun _ => pcbSendBye svcIdxs

/-- `const char *hostname = host ? host : _mdns_server->hostname` (line 6644). -/
def resolveHostname (srv : Server) (host : Option (List Char)) : Option (List Char) :=
  match host with
  | some h => some h
  | none => srv.hostname

/-- `mdns_service_remove_for_host` (lines 6640-6691).  The removal loop
unlinks the first list node matching the same predicate the preceding lookup
used, sends the goodbye for it and frees it.
`_mdns_remove_scheduled_service_packets` (line 6661) only edits the already
scheduled queue and the PCB probe bookkeeping — it neither dispatches nor
schedules packets and never touches the service list — so it contributes
nothing to the fields modelled here. -/
def serviceRemoveForHost (srv : Server) (instN service proto host : Option (List Char)) :
    EspErr × Server × List TxEffect :=
  let hostname := resolveHostname srv host
  if srv.services.isEmpty || strNullOrEmpty service || strNullOrEmpty proto then
    (.invalidArg, srv, [])
  else
    match findServiceIdx srv instN service proto hostname with
    | none => (.notFound, srv, [])
    | some i =>
      (.ok, { srv with services := srv.services.eraseIdx i }, sendBye srv [i])

/-! ## Answering a parsed packet: `_mdns_create_answer_from_parsed_packet`
(mdns.c lines 1860-2002) and known-answer suppression (C3) -/

/-- One entry of the parsed-question list (`mdns_parsed_question_t`). -/
structure ParsedQuestion where
  qtype : Nat
  sub : Bool
  unicast : Bool
  host : Option (List Char)
  service : Option (List Char)
  proto : Option (List Char)
deriving DecidableEq

/-- One entry of the parsed-record list (`mdns_parsed_record_t`), the fields
the known-answer check reads. -/
structure ParsedRecord where
  host : Option (List Char)
  service : Option (List Char)
  proto : Option (List Char)
  ttl : Nat
deriving DecidableEq

/-- The parsed packet (`mdns_parsed_packet_t`), fields the answer builder
reads. -/
structure ParsedPacket where
  questions : List ParsedQuestion
  records : List ParsedRecord
  probe : Bool
  srcPort : Nat
deriving DecidableEq

/-- `_mdns_service_match_ptr_question` (lines 1832-1855). -/
def matchPtrQuestion (srv : Server) (s : MService) (q : ParsedQuestion) : Bool :=
  if !serviceMatch s q.service q.proto none then
    false
  else if q.sub then
    s.subtypes.any fun sub => strcaseEqOpt (some sub) q.host
  else
    match q.host with
    | some _ => strcaseEqOpt (getServiceInstanceName srv s) q.host
    | none => true

/-- The known-answer walk of lines 1896-1911: a record of the same packet
satisfies the planned answer for `s` when the instance/service/proto match
and the TTL is more than half of `MDNS_ANSWER_PTR_TTL`. -/
def recordSatisfies (srv : Server) (s : MService) (r : ParsedRecord) : Bool :=
  match s.instName, r.host with
  | some _, some rh =>
      serviceMatchInstance srv s (some rh) r.service r.proto none &&
        decide (MDNS_ANSWER_PTR_TTL / 2 < r.ttl)
  | none, none =>
      serviceMatch s r.service r.proto none &&
        decide (MDNS_ANSWER_PTR_TTL / 2 < r.ttl)
  | _, _ => false

/-- The mutable state of the answer builder: the three record sections, the
repeated one-shot questions (by type), the `out_record_nums` counter and the
`unicast` / `shared` locals of the C function. -/
structure BuildState where
  answers : List OutAnswer
  servers : List OutAnswer
  additional : List OutAnswer
  outQuestions : List Nat
  outRecordNums : Nat
  unicast : Bool
  shared : Bool
deriving DecidableEq

def emptyBuildState : BuildState :=
  { answers := [], servers := [], additional := [], outQuestions := [],
    outRecordNums := 0, unicast := false, shared := false }

/-- `_mdns_create_answer_from_service` (lines 1787-1820): which section each
record goes to depends on the question type, on whether the service lives on
a delegated host, and (for the address records of a PTR answer) on the
`shared` flag. -/
def createAnswerFromService (srv : Server) (st : BuildState) (sIdx : Nat)
    (s : MService) (qtype : Nat) (shared sendFlush : Bool) : BuildState :=
  let host := getHostItem srv s.hostname
  let isDelegated := host != some HostRef.selfHost
  if qtype == MDNS_TYPE_PTR || qtype == MDNS_TYPE_ANY then
    let ptrA : OutAnswer :=
      { atype := MDNS_TYPE_PTR, svcIdx := some sIdx, hostRef := none,
        flush := false, bye := false }
    let srvA : OutAnswer :=
      { atype := MDNS_TYPE_SRV, svcIdx := some sIdx, hostRef := none,
        flush := sendFlush, bye := false }
    let txtA : OutAnswer :=
      { atype := MDNS_TYPE_TXT, svcIdx := some sIdx, hostRef := none,
        flush := sendFlush, bye := false }
    let aA : OutAnswer :=
      { atype := MDNS_TYPE_A, svcIdx := some sIdx, hostRef := host,
        flush := sendFlush, bye := false }
    let aaaaA : OutAnswer :=
      { atype := MDNS_TYPE_AAAA, svcIdx := some sIdx, hostRef := host,
        flush := sendFlush, bye := false }
    let st := { st with answers := allocAnswer st.answers ptrA }
    let st :=
      if isDelegated then
        { st with additional := allocAnswer (allocAnswer st.additional srvA) txtA }
      else
        { st with answers := allocAnswer (allocAnswer st.answers srvA) txtA }
    if shared || isDelegated then
      { st with additional := allocAnswer (allocAnswer st.additional aA) aaaaA }
    else
      { st with answers := allocAnswer (allocAnswer st.answers aA) aaaaA }
  else if qtype == MDNS_TYPE_SRV then
    let srvA : OutAnswer :=
      { atype := MDNS_TYPE_SRV, svcIdx := some sIdx, hostRef := none,
        flush := sendFlush, bye := false }
    let aA : OutAnswer :=
      { atype := MDNS_TYPE_A, svcIdx := some sIdx, hostRef := host,
        flush := sendFlush, bye := false }
    let aaaaA : OutAnswer :=
      { atype := MDNS_TYPE_AAAA, svcIdx := some sIdx, hostRef := host,
        flush := sendFlush, bye := false }
    let st := { st with answers := allocAnswer st.answers srvA }
    { st with additional := allocAnswer (allocAnswer st.additional aA) aaaaA }
  else if qtype == MDNS_TYPE_TXT then
    let txtA : OutAnswer :=
      { atype := MDNS_TYPE_TXT, svcIdx := some sIdx, hostRef := none,
        flush := sendFlush, bye := false }
    { st with answers := allocAnswer st.answers txtA }
  else if qtype == MDNS_TYPE_SDPTR then
    let sdA : OutAnswer :=
      { atype := MDNS_TYPE_SDPTR, svcIdx := some sIdx, hostRef := none,
        flush := false, bye := false }
    { st with answers := allocAnswer st.answers sdA }
  else
    st

/-- `_mdns_create_answer_from_hostname` (lines 1822-1830). -/
def createAnswerFromHostname (srv : Server) (st : BuildState)
    (hostname : Option (List Char)) (sendFlush : Bool) : BuildState :=
  let host := getHostItem srv hostname
  let aA : OutAnswer :=
    { atype := MDNS_TYPE_A, svcIdx := none, hostRef := host,
      flush := sendFlush, bye := false }
  let aaaaA : OutAnswer :=
    { atype := MDNS_TYPE_AAAA, svcIdx := none, hostRef := host,
      flush := sendFlush, bye := false }
  { st with answers := allocAnswer (allocAnswer st.answers aA) aaaaA }

/-- `_mdns_append_host` (lines 2021-2030). -/
def appendHostAnswers (lst : List OutAnswer) (h : Option HostRef)
    (flush bye : Bool) : List OutAnswer :=
  let aA : OutAnswer :=
    { atype := MDNS_TYPE_A, svcIdx := none, hostRef := h, flush := flush, bye := bye }
  let aaaaA : OutAnswer :=
    { atype := MDNS_TYPE_AAAA, svcIdx := none, hostRef := h, flush := flush, bye := bye }
  allocAnswer (allocAnswer lst aA) aaaaA

/-- `_mdns_append_host_list` (lines 2051-2067): the self host first (when a
hostname is set), then the delegated-host walk — which, as in the source,
advances the cursor before using it, so it skips the first delegated host
and ends by appending answers with a NULL host item. -/
def appendHostList (srv : Server) (lst : List OutAnswer) (flush bye : Bool) :
    List OutAnswer :=
  let lst :=
    if !strNullOrEmpty srv.hostname then
      appendHostAnswers lst (getHostItem srv srv.hostname) flush bye
    else
      lst
  ((List.range srv.delegatedHosts.length).map fun k =>
      if k + 1 < srv.delegatedHosts.length then
        some (HostRef.delegated (k + 1))
      else
        none).foldl
    (fun acc h => appendHostAnswers acc h flush bye) lst

/-- The per-question body of the loop at lines 1878-1983. -/
def answerQuestionStep (srv : Server) (pp : ParsedPacket) (sendFlush : Bool)
    (st : BuildState) (q : ParsedQuestion) : BuildState :=
  let shared := q.qtype == MDNS_TYPE_PTR || q.qtype == MDNS_TYPE_SDPTR || !pp.probe
  let st := { st with shared := shared }
  let st :=
    if q.qtype == MDNS_TYPE_SRV || q.qtype == MDNS_TYPE_TXT then
      match findServiceIdx srv q.host q.service q.proto none with
      | none => st
      | some i =>
        let st := createAnswerFromService srv st i
          (srv.services.getD i (createService [] [] [] 0 none)) q.qtype shared sendFlush
        { st with outRecordNums := st.outRecordNums + 1 }
    else if q.service.isSome && q.proto.isSome then
      srv.services.enum.foldl
        (fun st is =>
          if matchPtrQuestion srv is.2 q then
            if pp.records.any (recordSatisfies srv is.2) then
              st
            else
              let st := createAnswerFromService srv st is.1 is.2 q.qtype shared sendFlush
              { st with outRecordNums := st.outRecordNums + 1 }
          else
            st)
        st
    else if q.qtype == MDNS_TYPE_A || q.qtype == MDNS_TYPE_AAAA then
      let st := createAnswerFromHostname srv st q.host sendFlush
      { st with outRecordNums := st.outRecordNums + 1 }
    else if q.qtype == MDNS_TYPE_ANY then
      let st := { st with answers := appendHostList srv st.answers sendFlush false }
      { st with outRecordNums := st.outRecordNums + 1 }
    else
      let otherA : OutAnswer :=
        { atype := q.qtype, svcIdx := none, hostRef := none,
          flush := sendFlush, bye := false }
      let st := { st with answers := allocAnswer st.answers otherA }
      { st with outRecordNums := st.outRecordNums + 1 }
  let st :=
    if pp.srcPort != MDNS_SERVICE_PORT &&
        (q.qtype == MDNS_TYPE_ANY || q.qtype == MDNS_TYPE_A ||
          q.qtype == MDNS_TYPE_AAAA) then
      { st with outQuestions := st.outQuestions ++ [q.qtype] }
    else
      st
  if q.unicast then { st with unicast := true } else st

/-- Where the finished answer packet goes (lines 1994-2001). -/
inductive AnswerDisposition
  | scheduledAfter (ms : Nat)
  | dispatchedNow
deriving DecidableEq

/-- `_mdns_create_answer_from_parsed_packet` (lines 1860-2002): `none` when
no packet is enqueued (no questions, or `out_record_nums == 0`); otherwise
the built sections and whether the packet was scheduled
(`25 + share_step * 25` ms, `share_step` cycling through 0..3) or dispatched
immediately. -/
def createAnswerFromParsedPacket (srv : Server) (pp : ParsedPacket)
    (shareStep : Nat) : Option (BuildState × AnswerDisposition) :=
  if pp.questions.isEmpty then
    none
  else
    let sendFlush := pp.srcPort == MDNS_SERVICE_PORT
    let st := pp.questions.foldl (answerQuestionStep srv pp sendFlush) emptyBuildState
    if st.outRecordNums == 0 then
      none
    else if st.shared then
      some (st, .scheduledAfter (25 + (shareStep % 4) * 25))
    else
      some (st, .dispatchedNow)

/-! ## The receive gate of `mdns_parse_packet` (mdns.c lines 3717-3747, C10) -/

/-- Modelled from the spec: the last header-field offset (header is 12 bytes,
counters at offsets 4, 6, 8, 10; spec §4.1); `MDNS_HEAD_ADDITIONAL_OFFSET`
in the missing header. -/
def MDNS_HEAD_ADDITIONAL_OFFSET : Nat := 10

/-- Modelled from the spec: the authoritative-response flags word
(spec §4.4 step 2); `MDNS_FLAGS_QR_AUTHORITATIVE = 0x8400` in the missing
header. -/
def MDNS_FLAGS_QR_AUTHORITATIVE : Nat := 0x8400

inductive RxDisposition
  | droppedEarly
  | questionsParsed
deriving DecidableEq

/-- The early checks of `mdns_parse_packet` that run before any question is
parsed: the minimum-size check (line 3717), the authoritative-source-port
check (line 3738) and the unset-hostname check (lines 3743-3747): a packet
with questions, no answer records and a null/empty server hostname is freed
and dropped. -/
def parsePacketEarlyChecks (hostname : Option (List Char))
    (len flags questions answers srcPort : Nat) : RxDisposition :=
  if len ≤ MDNS_HEAD_ADDITIONAL_OFFSET then
    .droppedEarly
  else if flags == MDNS_FLAGS_QR_AUTHORITATIVE && srcPort != MDNS_SERVICE_PORT then
    .droppedEarly
  else if questions != 0 && answers == 0 && strNullOrEmpty hostname then
    .droppedEarly
  else
    .questionsParsed

/-! ## The one-shot query engine (mdns.c lines 4586-4923, 5377-5404,
6819-6848; C7, C8) -/

/-- An address fed to the aggregator (`esp_ip_addr_t`). -/
inductive IpAddr
  | v4 (a : Nat)
  | v6 (a : List Nat)
deriving DecidableEq

/-- The type-then-payload comparison of `_mdns_result_add_ip`
(lines 4710-4722). -/
def ipAddrEq (a b : IpAddr) : Bool :=
  match a, b with
  | .v4 x, .v4 y => x == y
  | .v6 x, .v6 y => x == y
  | _, _ => false

/-- `ip->type == ESP_IPADDR_TYPE_V4`. -/
def ipIsV4 : IpAddr → Bool
  | .v4 _ => true
  | .v6 _ => false

/-- One aggregated result (`mdns_result_t`), fields the aggregator writes. -/
structure SearchResult where
  netif : Nat
  ipProtocol : Nat
  instName : Option (List Char)
  hostname : Option (List Char)
  serviceType : Option (List Char)
  proto : Option (List Char)
  port : Nat
  hasTxt : Bool
  txtCount : Nat
  addrs : List IpAddr
  ttl : Nat
deriving DecidableEq

/-- Modelled from the spec: the search lifecycle states (spec §3, Query
`state ∈ {INIT, RUNNING, OFF}`); the enumeration lives in the missing
header. -/
def SEARCH_INIT : Nat := 0

def SEARCH_RUNNING : Nat := 1

def SEARCH_OFF : Nat := 2

/-- `mdns_search_once_t`, fields the claims touch. -/
structure SearchOnce where
  stype : Nat
  instName : Option (List Char)
  service : Option (List Char)
  proto : Option (List Char)
  timeout : Nat
  startedAt : Nat
  sentAt : Nat
  maxResults : Nat
  numResults : Nat
  results : List SearchResult
  state : Nat
deriving DecidableEq

/-- `_mdns_search_init` (lines 4586-4639): strings are
`strndup(.., MDNS_NAME_BUF_LEN - 1)` when non-empty, the result list starts
empty with `num_results = 0` and state `SEARCH_INIT`. -/
def searchInit (name service proto : Option (List Char)) (stype : Nat)
    (timeout maxResults now : Nat) : SearchOnce :=
  { stype := stype,
    instName := if !strNullOrEmpty name then (name.getD []).take 63 |> some else none,
    service := if !strNullOrEmpty service then (service.getD []).take 63 |> some else none,
    proto := if !strNullOrEmpty proto then (proto.getD []).take 63 |> some else none,
    timeout := timeout,
    startedAt := now,
    sentAt := 0,
    maxResults := maxResults,
    numResults := 0,
    results := [],
    state := SEARCH_INIT }

/-- Apply `f` to the first list entry satisfying `p` (the C loops update the
node they break on and leave the rest alone). -/
def updateFirst (p : α → Bool) (f : α → α) : List α → List α
  | [] => []
  | x :: xs => if p x then f x :: xs else x :: updateFirst p f xs

/-- `_mdns_result_update_ttl` (lines 4699-4702): keep the minimum. -/
def resultUpdateTtl (r : SearchResult) (ttl : Nat) : SearchResult :=
  { r with ttl := if r.ttl < ttl then r.ttl else ttl }

/-- `_mdns_result_add_ip` (lines 4707-4731): prepend the address unless an
equal one is already present. -/
def resultAddIp (r : SearchResult) (ip : IpAddr) : SearchResult :=
  if r.addrs.any (ipAddrEq · ip) then r else { r with addrs := ip :: r.addrs }

/-- The capacity test guarding every push:
`!search->max_results || search->num_results < search->max_results`. -/
def searchHasRoom (s : SearchOnce) : Bool :=
  s.maxResults == 0 || s.numResults < s.maxResults

/-- `_mdns_search_result_add_ptr` (lines 4794-4831): merge the TTL into an
existing result with the same interface, protocol and instance name, else
push a fresh result to the front when below the cap. -/
def searchResultAddPtr (s : SearchOnce) (instN svc proto : List Char)
    (netif ipProto ttl : Nat) : SearchOnce :=
  let pred := fun (r : SearchResult) =>
    r.netif == netif && r.ipProtocol == ipProto &&
      !strNullOrEmpty r.instName && strcaseEqOpt (some instN) r.instName
  if s.results.any pred then
    { s with results := updateFirst pred (resultUpdateTtl · ttl) s.results }
  else if searchHasRoom s then
    let r : SearchResult :=
      { netif := netif, ipProtocol := ipProto, instName := some instN,
        hostname := none, serviceType := some svc, proto := some proto,
        port := 0, hasTxt := false, txtCount := 0, addrs := [], ttl := ttl }
    { s with results := r :: s.results, numResults := s.numResults + 1 }
  else
    s

/-- `_mdns_search_result_add_srv` (lines 4836-4873). -/
def searchResultAddSrv (s : SearchOnce) (hostname : List Char)
    (port netif ipProto ttl : Nat) : SearchOnce :=
  let pred := fun (r : SearchResult) =>
    r.netif == netif && r.ipProtocol == ipProto &&
      !strNullOrEmpty r.hostname && strcaseEqOpt (some hostname) r.hostname
  if s.results.any pred then
    { s with results := updateFirst pred (resultUpdateTtl · ttl) s.results }
  else if searchHasRoom s then
    let r : SearchResult :=
      { netif := netif, ipProtocol := ipProto, instName := s.instName,
        hostname := some hostname, serviceType := s.service, proto := s.proto,
        port := port, hasTxt := false, txtCount := 0, addrs := [], ttl := ttl }
    { s with results := r :: s.results, numResults := s.numResults + 1 }
  else
    s

/-- `_mdns_search_result_add_txt` (lines 4878-4923): a result that already
has TXT data keeps it (the incoming items are freed); otherwise the items
are attached and the TTL merged. -/
def searchResultAddTxt (s : SearchOnce) (txtCount netif ipProto ttl : Nat) :
    SearchOnce :=
  let pred := fun (r : SearchResult) =>
    r.netif == netif && r.ipProtocol == ipProto
  if s.results.any pred then
    let upd := fun (r : SearchResult) =>
      if r.hasTxt then r
      else resultUpdateTtl { r with hasTxt := true, txtCount := txtCount } ttl
    { s with results := updateFirst pred upd s.results }
  else if searchHasRoom s then
    let r : SearchResult :=
      { netif := netif, ipProtocol := ipProto, instName := none,
        hostname := none, serviceType := none, proto := none,
        port := 0, hasTxt := true, txtCount := txtCount, addrs := [], ttl := ttl }
    { s with results := r :: s.results, numResults := s.numResults + 1 }
  else
    s

/-- `_mdns_search_result_add_ip` (lines 4736-4789): for A/AAAA/ANY searches
the result is keyed by (interface, protocol); for PTR/SRV searches the
address is only merged into an existing result with the matching hostname,
never pushed. -/
def searchResultAddIp (s : SearchOnce) (hostname : List Char) (ip : IpAddr)
    (netif ipProto ttl : Nat) : SearchOnce :=
  if (s.stype == MDNS_TYPE_A && ipIsV4 ip) ||
      (s.stype == MDNS_TYPE_AAAA && !ipIsV4 ip) ||
      s.stype == MDNS_TYPE_ANY then
    let pred := fun (r : SearchResult) =>
      r.netif == netif && r.ipProtocol == ipProto
    if s.results.any pred then
      let upd := fun (r : SearchResult) => resultUpdateTtl (resultAddIp r ip) ttl
      { s with results := updateFirst pred upd s.results }
    else if searchHasRoom s then
      let r : SearchResult :=
        { netif := netif, ipProtocol := ipProto, instName := none,
          hostname := some hostname, serviceType := none, proto := none,
          port := 0, hasTxt := false, txtCount := 0, addrs := [ip], ttl := ttl }
      { s with results := r :: s.results, numResults := s.numResults + 1 }
    else
      s
  else if s.stype == MDNS_TYPE_PTR || s.stype == MDNS_TYPE_SRV then
    let pred := fun (r : SearchResult) =>
      r.netif == netif && r.ipProtocol == ipProto &&
        !strNullOrEmpty r.hostname && strcaseEqOpt (some hostname) r.hostname
    let upd := fun (r : SearchResult) => resultUpdateTtl (resultAddIp r ip) ttl
    { s with results := updateFirst pred upd s.results }
  else
    s

/-- The per-search body of `_mdns_search_run` (lines 5386-5400): past the
deadline the search is turned off (the END action is modelled as enqueued
successfully); otherwise a still-fresh search is (re)sent and stamped. -/
def searchRunStep (s : SearchOnce) (now : Nat) : SearchOnce :=
  if s.state != SEARCH_OFF then
    if s.startedAt + s.timeout < now then
      { s with state := SEARCH_OFF }
    else if s.state == SEARCH_INIT || 1000 < now - s.sentAt then
      { s with state := SEARCH_RUNNING, sentAt := now }
    else
      s
  else
    s

/-- Everything the parser and the timer do to one search while it is
active. -/
inductive SearchEvent
  | addPtr (instN svc proto : List Char) (netif ipProto ttl : Nat)
  | addSrv (hostname : List Char) (port netif ipProto ttl : Nat)
  | addTxt (txtCount netif ipProto ttl : Nat)
  | addIp (hostname : List Char) (ip : IpAddr) (netif ipProto ttl : Nat)
  | runTick (now : Nat)
deriving DecidableEq

def searchStep (s : SearchOnce) : SearchEvent → SearchOnce
  | .addPtr instN svc proto netif ipProto ttl =>
      searchResultAddPtr s instN svc proto netif ipProto ttl
  | .addSrv hostname port netif ipProto ttl =>
      searchResultAddSrv s hostname port netif ipProto ttl
  | .addTxt txtCount netif ipProto ttl =>
      searchResultAddTxt s txtCount netif ipProto ttl
  | .addIp hostname ip netif ipProto ttl =>
      searchResultAddIp s hostname ip netif ipProto ttl
  | .runTick now => searchRunStep s now

def runSearch (s : SearchOnce) (events : List SearchEvent) : SearchOnce :=
  events.foldl searchStep s

/-- `mdns_query_generic` (lines 6819-6848): `*results` is cleared first; bad
arguments are rejected; otherwise the search is created and handed to the
action loop, the caller blocks on the done semaphore, and once the search
ends — also when it ends by timeout — the collected results are returned
with `ESP_OK`.  The action loop is abstracted by `events`, the aggregator
and timer calls processed while the search was active. -/
def mdnsQueryGeneric (serverInited : Bool) (name service proto : Option (List Char))
    (qtype timeout maxResults startNow : Nat) (events : List SearchEvent) :
    EspErr × List SearchResult :=
  if !serverInited then
    (.invalidState, [])
  else if timeout == 0 || (strNullOrEmpty service != strNullOrEmpty proto) then
    (.invalidArg, [])
  else
    let s := runSearch (searchInit name service proto qtype timeout maxResults startNow)
      events
    (.ok, s.results)

/-! # Theorems -/

/-! ## C10: the unset-hostname gate -/

/-- **C10**: while the server's hostname is unset (null or empty), every
received packet that contains questions and no answer records is dropped by
`mdns_parse_packet` before its questions are parsed, so no question is
answered before a hostname is set. -/
theorem C10_unset_hostname_drops_questions
    (hostname : Option (List Char)) (len flags questions answers srcPort : Nat)
    (hq : questions ≠ 0) (ha : answers = 0)
    (hh : strNullOrEmpty hostname = true) :
    parsePacketEarlyChecks hostname len flags questions answers srcPort =
      RxDisposition.droppedEarly := by
  unfold parsePacketEarlyChecks
  split_ifs with h1 h2 h3
  · rfl
  · rfl
  · rfl
  · exfalso
    apply h3
    simp [hq, ha, hh]

/-- Witness for C10: a 100-byte query-only packet with one question arriving
while the hostname is unset is dropped. -/
theorem C10_witness :
    parsePacketEarlyChecks none 100 0 1 0 12345 = RxDisposition.droppedEarly :=
  C10_unset_hostname_drops_questions none 100 0 1 0 12345 (by decide) rfl rfl

/-! ## C8: a timed-out query returns success and no results -/

/-- **C8**: a synchronous query that reaches its timeout without receiving
any matching record returns `ESP_OK` together with an empty result list, and
the timeout tick is what turns the search off (`_mdns_search_run`,
lines 5386-5392, releasing the caller of `mdns_query_generic`,
lines 6842-6847). -/
theorem C8_timeout_returns_ok_empty
    (name service proto : Option (List Char)) (qtype timeout maxResults startNow T : Nat)
    (htimeout : timeout ≠ 0)
    (hparity : strNullOrEmpty service = strNullOrEmpty proto)
    (hpast : startNow + timeout < T) :
    mdnsQueryGeneric true name service proto qtype timeout maxResults startNow
        [SearchEvent.runTick T] = (EspErr.ok, []) ∧
      (runSearch (searchInit name service proto qtype timeout maxResults startNow)
        [SearchEvent.runTick T]).state = SEARCH_OFF := by
  have hrun : runSearch (searchInit name service proto qtype timeout maxResults startNow)
      [SearchEvent.runTick T] =
      { searchInit name service proto qtype timeout maxResults startNow with
        state := SEARCH_OFF } := by
    simp [runSearch, searchStep, searchRunStep, searchInit, SEARCH_INIT, SEARCH_OFF, hpast]
  refine ⟨?_, by rw [hrun]⟩
  unfold mdnsQueryGeneric
  rw [if_neg (by simp), if_neg (by simp [htimeout, hparity])]
  rw [hrun]
  simp [searchInit]

/-- Witness for C8: a PTR query with a 2000 ms timeout, started at t = 0,
whose only event is the timer tick at t = 2001. -/
theorem C8_witness :
    mdnsQueryGeneric true none (some ['_', 'h']) (some ['_', 't']) MDNS_TYPE_PTR
        2000 10 0 [SearchEvent.runTick 2001] = (EspErr.ok, []) ∧
      (runSearch (searchInit (none : Option (List Char)) (some ['_', 'h'])
        (some ['_', 't']) MDNS_TYPE_PTR 2000 10 0)
        [SearchEvent.runTick 2001]).state = SEARCH_OFF :=
  C8_timeout_returns_ok_empty none (some ['_', 'h']) (some ['_', 't']) MDNS_TYPE_PTR
    2000 10 0 2001 (by decide) (by decide) (by decide)

/-! ## C6: the tx queue stays sorted and equal send-at packets keep FIFO
order -/

theorem txInsertTail_eq (p q : TxPacket) (rest : List TxPacket)
    (hq : q.sendAt ≤ p.sendAt) :
    txInsertTail p q rest =
      q :: (rest.takeWhile (fun r => r.sendAt ≤ p.sendAt) ++
        p :: rest.dropWhile (fun r => r.sendAt ≤ p.sendAt)) := by
  induction rest generalizing q with
  | nil => simp [txInsertTail]
  | cons r rs ih =>
    by_cases hr : r.sendAt ≤ p.sendAt
    · simp [txInsertTail, hr, ih r hr]
    · simp [txInsertTail, hr]

/-- The insertion of `_mdns_schedule_tx_packet` goes after the longest
prefix of nodes whose `send_at` does not exceed the new packet's, regardless
of the queue's shape. -/
theorem scheduleTxPacket_eq (queue : List TxPacket) (p : TxPacket) (now msAfter : Nat) :
    scheduleTxPacket queue p now msAfter =
      queue.takeWhile (fun r => r.sendAt ≤ now + msAfter) ++
        { p with sendAt := now + msAfter } ::
          queue.dropWhile (fun r => r.sendAt ≤ now + msAfter) := by
  unfold scheduleTxPacket
  match queue with
  | [] => simp
  | h :: t =>
    by_cases hh : now + msAfter < h.sendAt
    · simp only [hh, if_pos]
      have : ¬ (h.sendAt ≤ now + msAfter) := by omega
      simp [this]
    · simp only [hh, if_neg]
      have hle : h.sendAt ≤ now + msAfter := by omega
      rw [txInsertTail_eq _ _ _ hle]
      simp [hle]

/-- In a sorted queue everything after a node is at least as late as it. -/
theorem chain_le_all (h : TxPacket) (l : List TxPacket)
    (hs : List.Chain' (fun a b => a.sendAt ≤ b.sendAt) (h :: l)) :
    ∀ x ∈ l, h.sendAt ≤ x.sendAt := by
  induction l generalizing h with
  | nil => simp
  | cons r rs ih =>
    intro x hx
    rw [List.chain'_cons] at hs
    rcases List.mem_cons.mp hx with hx | hx
    · subst hx
      exact hs.1
    · exact le_trans hs.1 (ih r hs.2 x hx)

theorem insert_keeps_sorted (t : Nat) (p2 : TxPacket) (hp : p2.sendAt = t) :
    ∀ l : List TxPacket, List.Chain' (fun a b => a.sendAt ≤ b.sendAt) l →
      List.Chain' (fun a b => a.sendAt ≤ b.sendAt)
        (l.takeWhile (fun r => r.sendAt ≤ t) ++
          p2 :: l.dropWhile (fun r => r.sendAt ≤ t)) := by
  intro l
  induction l with
  | nil => simp
  | cons h rest ih =>
    intro hs
    rw [List.chain'_cons'] at hs
    by_cases hcond : h.sendAt ≤ t
    · simp only [List.takeWhile_cons, List.dropWhile_cons, hcond, decide_True,
        if_true, List.cons_append]
      rw [List.chain'_cons']
      refine ⟨?_, ih hs.2⟩
      intro b hb
      match rest with
      | [] =>
        simp at hb
        subst hb
        omega
      | r :: rs =>
        by_cases hr : r.sendAt ≤ t
        · simp [List.takeWhile_cons, hr] at hb
          subst hb
          have := hs.1 r (by simp)
          omega
        · simp [List.takeWhile_cons, hr] at hb
          subst hb
          omega
    · simp only [List.takeWhile_cons, List.dropWhile_cons, hcond, decide_False,
        Bool.false_eq_true, if_false, List.nil_append]
      rw [List.chain'_cons]
      constructor
      · omega
      · rw [List.chain'_cons']
        exact hs

theorem dropWhile_all_late (t : Nat) :
    ∀ l : List TxPacket, List.Chain' (fun a b => a.sendAt ≤ b.sendAt) l →
      ∀ x ∈ l.dropWhile (fun r => r.sendAt ≤ t), t < x.sendAt := by
  intro l
  induction l with
  | nil => simp
  | cons h rest ih =>
    intro hs x hx
    by_cases hcond : h.sendAt ≤ t
    · simp only [List.dropWhile_cons, hcond, decide_True, if_true] at hx
      exact ih (List.Chain'.tail hs) x hx
    · simp only [List.dropWhile_cons, hcond, decide_False, if_false] at hx
      rcases List.mem_cons.mp hx with hx | hx
      · subst hx
        omega
      · have := chain_le_all h rest hs x hx
        omega

/-- **C6**: inserting a packet into a sorted tx queue keeps it monotonically
non-decreasing in `send_at`, the new packet lands exactly after the prefix of
already-queued packets whose `send_at` does not exceed its own, and every
packet the insertion passes over it strictly precedes — so packets with
equal `send_at`, all of which sit in that prefix, keep FIFO order. -/
theorem C6_tx_queue_sorted_fifo (queue : List TxPacket) (p : TxPacket)
    (now msAfter : Nat) (hs : txQueueSorted queue) :
    txQueueSorted (scheduleTxPacket queue p now msAfter) ∧
      scheduleTxPacket queue p now msAfter =
        queue.takeWhile (fun r => r.sendAt ≤ now + msAfter) ++
          { p with sendAt := now + msAfter } ::
            queue.dropWhile (fun r => r.sendAt ≤ now + msAfter) ∧
      ∀ x ∈ queue.dropWhile (fun r => r.sendAt ≤ now + msAfter),
        now + msAfter < x.sendAt := by
  refine ⟨?_, scheduleTxPacket_eq queue p now msAfter, dropWhile_all_late _ queue hs⟩
  rw [scheduleTxPacket_eq queue p now msAfter]
  exact insert_keeps_sorted (now + msAfter) _ rfl queue hs

/-- Witness for C6: inserting a packet with `send_at = 30` into the sorted
queue `[10, 30, 50]` keeps the queue sorted and places it after the queued
packet with the same `send_at`. -/
theorem C6_witness :
    txQueueSorted (scheduleTxPacket [⟨1, 10⟩, ⟨2, 30⟩, ⟨3, 50⟩] ⟨4, 0⟩ 10 20) ∧
      scheduleTxPacket [⟨1, 10⟩, ⟨2, 30⟩, ⟨3, 50⟩] ⟨4, 0⟩ 10 20 =
        ([⟨1, 10⟩, ⟨2, 30⟩, ⟨3, 50⟩] : List TxPacket).takeWhile
            (fun r => r.sendAt ≤ 10 + 20) ++
          { (⟨4, 0⟩ : TxPacket) with sendAt := 10 + 20 } ::
            ([⟨1, 10⟩, ⟨2, 30⟩, ⟨3, 50⟩] : List TxPacket).dropWhile
              (fun r => r.sendAt ≤ 10 + 20) ∧
      ∀ x ∈ ([⟨1, 10⟩, ⟨2, 30⟩, ⟨3, 50⟩] : List TxPacket).dropWhile
          (fun r => r.sendAt ≤ 10 + 20), 10 + 20 < x.sendAt :=
  C6_tx_queue_sorted_fifo [⟨1, 10⟩, ⟨2, 30⟩, ⟨3, 50⟩] ⟨4, 0⟩ 10 20 (by
    constructor <;> simp [txQueueSorted])

/-! ## C5: name mangling -/

theorem lastDashIdx_of_not_mem (l : List Char) (h : '-' ∉ l) :
    lastDashIdx l = none := by
  induction l with
  | nil => rfl
  | cons c cs ih =>
    have hc : c ≠ '-' := fun he => h (by simp [he])
    have hcs : '-' ∉ cs := fun hm => h (by simp [hm])
    simp [lastDashIdx, ih hcs, hc]

theorem lastDashIdx_concat (base tl : List Char) (h : '-' ∉ tl) :
    lastDashIdx (base ++ '-' :: tl) = some base.length := by
  induction base with
  | nil => simp [lastDashIdx, lastDashIdx_of_not_mem tl h]
  | cons c cs ih => simp [lastDashIdx, ih]

theorem digitChar_props (c : Char) (h : isDigitChar c = true) :
    isSpaceChar c = false ∧ (c == '-') = false ∧ (c == '+') = false := by
  have hn : 48 ≤ c.toNat ∧ c.toNat ≤ 57 := by simpa [isDigitChar] using h
  have hne : ∀ d : Char, d.toNat < 48 ∨ 57 < d.toNat → (c == d) = false := by
    intro d hd
    rw [beq_eq_false_iff_ne]
    intro he
    subst he
    rcases hd with hd | hd <;> omega
  refine ⟨?_, hne '-' (by decide), hne '+' (by decide)⟩
  simp [isSpaceChar, hne ' ' (by decide), hne '\t' (by decide), hne '\n' (by decide),
    hne '\x0b' (by decide), hne '\x0c' (by decide), hne '\r' (by decide)]

/-- A value already inside the `int` range is unchanged by the wrap. -/
theorem wrap32_small (z : Int) (h1 : -2147483648 ≤ z) (h2 : z ≤ 2147483647) :
    wrap32 z = z := by
  unfold wrap32
  omega

theorem cStrtol_digits (ds : List Char) (h1 : ds ≠ [])
    (h2 : ∀ c ∈ ds, isDigitChar c = true) (h3 : digitsVal ds ≤ 2147483647) :
    cStrtol ds = (1 * (digitsVal ds : Int), ds.length) := by
  match ds, h1 with
  | d :: ds2, _ =>
    have hd := digitChar_props d (h2 d (by simp))
    have htk : List.takeWhile isDigitChar (d :: ds2) = d :: ds2 := by
      rw [List.takeWhile_eq_self_iff]
      exact h2
    have hd1 : ¬ (d = '-') := by simpa [beq_eq_false_iff_ne] using hd.2.1
    have hd2 : ¬ (d = '+') := by simpa [beq_eq_false_iff_ne] using hd.2.2
    unfold cStrtol
    simp only [List.takeWhile_cons, hd.1, Bool.false_eq_true, if_false,
      List.length_nil, List.getD_cons_zero, hd1, hd2, List.drop_zero, htk,
      List.isEmpty_cons, List.length_cons]
    simp only [one_mul, LONG_MAX, LONG_MIN]
    rw [if_neg (by simp [h2 d (by simp)])]
    rw [if_neg (by simp only [Nat.add_zero, List.drop_zero, htk]; omega),
      if_neg (by simp only [Nat.add_zero, List.drop_zero, htk]; omega)]
    simp [htk]

/-- Counterexample for **C5**: the mangled name is never re-checked or
truncated to 63 bytes — a 63-byte name mangles to 65 bytes — and a name
ending in a bare dash (no numeric suffix) gets `-1`, not an appended `-2`. -/
theorem C5_counterexample :
    mangleName (List.replicate 63 'a') = List.replicate 63 'a' ++ ['-', '2'] ∧
      (mangleName (List.replicate 63 'a')).length = 65 ∧
      mangleName ['f', 'o', 'o', '-'] = ['f', 'o', 'o', '-', '1'] := by
  refine ⟨?_, ?_, ?_⟩ <;> rfl

/-- **C5 (amended)**: for a non-empty input, mangling appends `-2` when the
name has no `-` at all; when the text after the last `-` is a non-empty
digit string `N` below `LONG_MAX` (larger values are clamped by `strtol`,
and `suffix + 1` wraps as a 32-bit `int`), the suffix is replaced by
`-(N+1)`; when that text does not fully parse as a number (`strtol`
semantics), `-2` is appended to the entire string.  The mangled name's
length is not re-checked and may exceed 63 bytes (see the
counterexample). -/
theorem C5_mangle_amended :
    (∀ inp : List Char, inp ≠ [] → '-' ∉ inp →
      mangleName inp = inp ++ ['-', '2']) ∧
    (∀ base ds : List Char, ds ≠ [] → (∀ c ∈ ds, isDigitChar c = true) →
      digitsVal ds < 2147483647 →
      mangleName (base ++ '-' :: ds) =
        base ++ '-' :: (Nat.repr (digitsVal ds + 1)).data) ∧
    (∀ base tl : List Char, '-' ∉ tl → (cStrtol tl).2 ≠ tl.length →
      mangleName (base ++ '-' :: tl) = (base ++ '-' :: tl) ++ ['-', '2']) := by
  have hdrop : ∀ (base tl : List Char),
      (base ++ '-' :: tl).drop (base.length + 1) = tl := by
    intro base tl
    have : base ++ '-' :: tl = (base ++ ['-']) ++ tl := by simp
    rw [this]
    have hlen : (base ++ ['-']).length = base.length + 1 := by simp
    rw [← hlen, List.drop_left]
  have htake : ∀ (base tl : List Char),
      (base ++ '-' :: tl).take base.length = base := fun base tl =>
    List.take_left base ('-' :: tl)
  refine ⟨?_, ?_, ?_⟩
  · intro inp hne hnd
    unfold mangleName
    rw [lastDashIdx_of_not_mem inp hnd]
  · intro base ds hne hdig hsmall
    have hnd : '-' ∉ ds := by
      intro hm
      have := hdig '-' hm
      simp [isDigitChar] at this
    unfold mangleName
    rw [lastDashIdx_concat base ds hnd]
    simp only [hdrop base ds, cStrtol_digits ds hne hdig (by omega)]
    rw [if_neg (by simp)]
    rw [htake base ds]
    rw [wrap32_small (1 * (digitsVal ds : Int) + 1) (by omega) (by omega)]
    have hrep : Int.repr (1 * (digitsVal ds : Int) + 1) = Nat.repr (digitsVal ds + 1) := by
      have : (1 * (digitsVal ds : Int) + 1) = ((digitsVal ds + 1 : Nat) : Int) := by
        push_cast
        ring
      rw [this]
      rfl
    rw [hrep]
  · intro base tl hnd hbad
    unfold mangleName
    rw [lastDashIdx_concat base tl hnd]
    simp only [hdrop base tl]
    rw [if_pos hbad]

/-- Witness for C5 (amended): `ab` mangles to `ab-2`, `a-2` to `a-3`, and
`a-x` (non-numeric suffix) to `a-x-2`. -/
theorem C5_witness :
    mangleName ['a', 'b'] = ['a', 'b', '-', '2'] ∧
      mangleName ['a', '-', '2'] = ['a'] ++ '-' :: (Nat.repr (digitsVal ['2'] + 1)).data ∧
      mangleName ['a', '-', 'x'] = ['a', '-', 'x', '-', '2'] :=
  ⟨C5_mangle_amended.1 ['a', 'b'] (by decide) (by decide),
    C5_mangle_amended.2.1 ['a'] ['2'] (by decide) (by decide) (by decide),
    C5_mangle_amended.2.2 ['a'] ['x'] (by decide) (by decide)⟩

/-! ## C7: result-count cap and monotonicity -/

theorem updateFirst_length (p : α → Bool) (f : α → α) :
    ∀ l : List α, (updateFirst p f l).length = l.length := by
  intro l
  induction l with
  | nil => rfl
  | cons x xs ih =>
    unfold updateFirst
    split_ifs <;> simp [ih]

/-- Every aggregator step either leaves the result list (and `num_results`
and `max_results`) unchanged in length, or pushes exactly one result while
the capacity check `searchHasRoom` passed. -/
theorem searchStep_len (s : SearchOnce) (e : SearchEvent) :
    ((searchStep s e).results.length = s.results.length ∧
        (searchStep s e).numResults = s.numResults ∧
        (searchStep s e).maxResults = s.maxResults) ∨
      ((searchStep s e).results.length = s.results.length + 1 ∧
        (searchStep s e).numResults = s.numResults + 1 ∧
        (searchStep s e).maxResults = s.maxResults ∧
        searchHasRoom s = true) := by
  cases e <;>
    simp only [searchStep, searchResultAddPtr, searchResultAddSrv, searchResultAddTxt,
      searchResultAddIp, searchRunStep] <;>
    repeat' split
  all_goals
    first
      | (left; refine ⟨?_, rfl, rfl⟩; simp [updateFirst_length])
      | (right; refine ⟨?_, rfl, rfl, ?_⟩ <;> simp_all)

theorem runSearch_inv (N : Nat) (hN : 0 < N) :
    ∀ (events : List SearchEvent) (s : SearchOnce),
      s.numResults = s.results.length → s.results.length ≤ N → s.maxResults = N →
      (runSearch s events).numResults = (runSearch s events).results.length ∧
        (runSearch s events).results.length ≤ N ∧
        (runSearch s events).maxResults = N := by
  intro events
  induction events with
  | nil =>
    intro s h1 h2 h3
    exact ⟨h1, h2, h3⟩
  | cons e es ih =>
    intro s h1 h2 h3
    have hstep := searchStep_len s e
    have hrun : runSearch s (e :: es) = runSearch (searchStep s e) es := rfl
    rw [hrun]
    rcases hstep with ⟨hl, hn, hm⟩ | ⟨hl, hn, hm, hroom⟩
    · exact ih (searchStep s e) (by omega) (by omega) (by omega)
    · have hroom2 : s.numResults < N := by
        unfold searchHasRoom at hroom
        rw [Bool.or_eq_true, beq_iff_eq, decide_eq_true_eq] at hroom
        rcases hroom with hzero | hlt
        · omega
        · omega
      exact ih (searchStep s e) (by omega) (by omega) (by omega)

/-- **C7**: for a query created with `max_results = N > 0`, the number of
results never exceeds `N` after any sequence of aggregator/timer events, and
the result count never decreases across a step: results are only added or
merged, never removed. -/
theorem C7_max_results_cap_monotone (name service proto : Option (List Char))
    (stype timeout maxResults now : Nat) (hN : 0 < maxResults) :
    (∀ events : List SearchEvent,
      (runSearch (searchInit name service proto stype timeout maxResults now)
        events).results.length ≤ maxResults) ∧
    (∀ (events : List SearchEvent) (e : SearchEvent),
      (runSearch (searchInit name service proto stype timeout maxResults now)
          events).results.length ≤
        (runSearch (searchInit name service proto stype timeout maxResults now)
          (events ++ [e])).results.length) := by
  constructor
  · intro events
    exact (runSearch_inv maxResults hN events
      (searchInit name service proto stype timeout maxResults now)
      (by simp [searchInit]) (by simp [searchInit]) (by simp [searchInit])).2.1
  · intro events e
    have happ : runSearch (searchInit name service proto stype timeout maxResults now)
        (events ++ [e]) =
        searchStep (runSearch (searchInit name service proto stype timeout maxResults now)
          events) e := by
      unfold runSearch
      rw [List.foldl_append]
      rfl
    rw [happ]
    rcases searchStep_len (runSearch
      (searchInit name service proto stype timeout maxResults now) events) e with
      ⟨hl, _, _⟩ | ⟨hl, _, _, _⟩ <;> omega

/-- Witness for C7: a PTR search capped at one result receives two distinct
PTR records; the cap holds and the count is monotone across the second
arrival. -/
theorem C7_witness :
    (runSearch (searchInit none (some ['_', 'h']) (some ['_', 't']) MDNS_TYPE_PTR
        2000 1 0)
      [SearchEvent.addPtr ['a'] ['_', 'h'] ['_', 't'] 0 0 4500,
        SearchEvent.addPtr ['b'] ['_', 'h'] ['_', 't'] 0 0 4500]).results.length ≤ 1 ∧
    (runSearch (searchInit none (some ['_', 'h']) (some ['_', 't']) MDNS_TYPE_PTR
        2000 1 0)
      [SearchEvent.addPtr ['a'] ['_', 'h'] ['_', 't'] 0 0 4500]).results.length ≤
      (runSearch (searchInit none (some ['_', 'h']) (some ['_', 't']) MDNS_TYPE_PTR
        2000 1 0)
      ([SearchEvent.addPtr ['a'] ['_', 'h'] ['_', 't'] 0 0 4500] ++
        [SearchEvent.addPtr ['b'] ['_', 'h'] ['_', 't'] 0 0 4500])).results.length :=
  ⟨(C7_max_results_cap_monotone none (some ['_', 'h']) (some ['_', 't']) MDNS_TYPE_PTR
      2000 1 0 (by decide)).1
      [SearchEvent.addPtr ['a'] ['_', 'h'] ['_', 't'] 0 0 4500,
        SearchEvent.addPtr ['b'] ['_', 'h'] ['_', 't'] 0 0 4500],
    (C7_max_results_cap_monotone none (some ['_', 'h']) (some ['_', 't']) MDNS_TYPE_PTR
      2000 1 0 (by decide)).2
      [SearchEvent.addPtr ['a'] ['_', 'h'] ['_', 't'] 0 0 4500]
      (SearchEvent.addPtr ['b'] ['_', 'h'] ['_', 't'] 0 0 4500)⟩

/-! ## C4: service add/remove versus service_exists -/

theorem strcaseEq_refl (a : List Char) : strcaseEq a a = true := by
  simp [strcaseEq]

theorem findMatchIdx_exists (p : α → Bool) :
    ∀ (l : List α) (i : Nat), findMatchIdx p l = some i → ∃ x ∈ l, p x = true := by
  intro l
  induction l with
  | nil =>
    intro i h
    simp [findMatchIdx] at h
  | cons x xs ih =>
    intro i h
    unfold findMatchIdx at h
    by_cases hpx : p x = true
    · exact ⟨x, by simp, hpx⟩
    · rw [if_neg hpx] at h
      rcases Option.map_eq_some'.mp h with ⟨j, hj, _⟩
      rcases ih j hj with ⟨z, hz, hpz⟩
      exact ⟨z, by simp [hz], hpz⟩

/-- Removing the first `p`-match from a list that holds at most one `q`-match
(where `p` implies `q` on its members) leaves no `q`-match behind. -/
theorem findMatch_erase_no_match (p q : α → Bool) :
    ∀ (l : List α) (i : Nat), findMatchIdx p l = some i →
      (∀ x ∈ l, p x = true → q x = true) →
      l.countP q ≤ 1 →
      ∀ y ∈ l.eraseIdx i, q y = false := by
  intro l
  induction l with
  | nil =>
    intro i h
    simp [findMatchIdx] at h
  | cons x xs ih =>
    intro i hfind himp hcount y hy
    unfold findMatchIdx at hfind
    by_cases hpx : p x = true
    · rw [if_pos hpx] at hfind
      have hi : i = 0 := by
        cases hfind
        rfl
      subst hi
      simp only [List.eraseIdx_cons_zero] at hy
      have hqx : q x = true := himp x (by simp) hpx
      have hzero : xs.countP q = 0 := by
        rw [List.countP_cons, hqx] at hcount
        simpa using hcount
      have := List.countP_eq_zero.mp hzero y hy
      simpa using this
    · rw [if_neg hpx] at hfind
      rcases Option.map_eq_some'.mp hfind with ⟨j, hj, hij⟩
      subst hij
      simp only [List.eraseIdx_cons_succ] at hy
      rcases findMatchIdx_exists p xs j hj with ⟨z, hz, hpz⟩
      have hqz : q z = true := himp z (by simp [hz]) hpz
      have hxs1 : 1 ≤ xs.countP q := by
        have := List.countP_pos_iff.mpr ⟨z, hz, hqz⟩
        omega
      rcases List.mem_cons.mp hy with hyx | hy2
      · subst hyx
        by_cases hqy : q y = true
        · exfalso
          rw [List.countP_cons, hqy] at hcount
          simp only [if_true] at hcount
          omega
        · simpa using hqy
      · have hcount2 : xs.countP q ≤ 1 := by
          rw [List.countP_cons] at hcount
          omega
        exact ih j hj (fun u hu => himp u (by simp [hu])) hcount2 y hy2

/-- The instance-aware match implies the plain match on a node whose
hostname is set, for the same hostname argument. -/
theorem matchInstance_implies_match (srv : Server) (s : MService)
    (instN service proto hostname : Option (List Char))
    (hh : s.hostname.isSome = true)
    (hm : serviceMatchInstance srv s instN service proto hostname = true) :
    serviceMatch s service proto hostname = true := by
  rcases Option.isSome_iff_exists.mp hh with ⟨hn, hhn⟩
  match service, proto with
  | some sv, some pr =>
    simp only [serviceMatchInstance] at hm
    simp only [serviceMatch, hhn]
    simp only [Bool.and_eq_true] at hm ⊢
    refine ⟨⟨hm.1.1.1, hm.1.2⟩, ?_⟩
    have := hm.2
    rwa [hhn] at this
  | none, _ => simp [serviceMatchInstance] at hm
  | some _, none => simp [serviceMatchInstance] at hm

/-- A plain match for any hostname argument is also a match for the NULL
hostname argument. -/
theorem match_weaken_hostname (s : MService) (service proto hostname : Option (List Char))
    (hm : serviceMatch s service proto hostname = true) :
    serviceMatch s service proto none = true := by
  unfold serviceMatch at hm ⊢
  match service, proto, hs : s.hostname with
  | some sv, some pr, some _ =>
    rw [hs] at hm
    simp only [Bool.and_eq_true] at hm ⊢
    exact ⟨hm.1, by simp [strNullOrEmpty]⟩
  | none, _, _ => simp at hm
  | some _, none, _ => simp at hm
  | some _, some _, none =>
    rw [hs] at hm
    simp at hm

/-- Counterexample for **C4**: two services that differ only in their
instance name can both be registered for the same (service, proto, host)
tuple; removing one of them succeeds, yet `mdns_service_exists` still
reports the tuple, so "remove success implies exists is false" fails. -/
theorem C4_counterexample :
    (serviceAddForHost ⟨some ['h'], none, [], [], []⟩ (some ['a']) (some ['s'])
      (some ['t']) none 80).1 = EspErr.ok ∧
    (serviceAddForHost (serviceAddForHost ⟨some ['h'], none, [], [], []⟩ (some ['a'])
      (some ['s']) (some ['t']) none 80).2 (some ['b']) (some ['s'])
      (some ['t']) none 80).1 = EspErr.ok ∧
    (serviceRemoveForHost (serviceAddForHost (serviceAddForHost
        ⟨some ['h'], none, [], [], []⟩ (some ['a']) (some ['s']) (some ['t']) none 80).2
        (some ['b']) (some ['s']) (some ['t']) none 80).2
      (some ['a']) (some ['s']) (some ['t']) none).1 = EspErr.ok ∧
    serviceExists (serviceRemoveForHost (serviceAddForHost (serviceAddForHost
        ⟨some ['h'], none, [], [], []⟩ (some ['a']) (some ['s']) (some ['t']) none 80).2
        (some ['b']) (some ['s']) (some ['t']) none 80).2
      (some ['a']) (some ['s']) (some ['t']) none).2.1
      (some ['s']) (some ['t']) none = true := by
  refine ⟨?_, ?_, ?_, ?_⟩ <;> rfl

/-- **C4 (amended)**: after a successful `service_add` (with arguments within
the 63-byte label limit the store truncates to), `service_exists` for the
tuple is true; after a successful `service_remove`, `service_exists` for the
tuple is false provided at most one registered service matched that
(service, proto, hostname) tuple — with several same-type instances
registered, removal only drops the first match (see the counterexample). -/
theorem C4_add_remove_exists :
    (∀ (srv : Server) (instN service proto host : Option (List Char)) (port : Nat)
      (out : EspErr × Server),
      serviceAddForHost srv instN service proto host port = out →
      out.1 = EspErr.ok →
      (service.getD []).length ≤ 63 → (proto.getD []).length ≤ 63 →
      (∀ h, host = some h → h.length ≤ 63) →
      serviceExists out.2 service proto host = true) ∧
    (∀ (srv : Server) (instN service proto host : Option (List Char))
      (out : EspErr × Server × List TxEffect),
      serviceRemoveForHost srv instN service proto host = out →
      out.1 = EspErr.ok →
      (∀ s ∈ srv.services, s.hostname.isSome = true) →
      srv.services.countP (fun s => serviceMatch s service proto host) ≤ 1 →
      serviceExists out.2.1 service proto host = false) := by
  constructor
  · intro srv instN service proto host port out hadd hok hlen1 hlen2 hlen3
    simp only [serviceAddForHost] at hadd
    split at hadd
    · rw [← hadd] at hok
      simp at hok
    · split at hadd
      · rw [← hadd] at hok
        simp at hok
      · split at hadd
        · rw [← hadd] at hok
          simp at hok
        · rename_i h1 h2 h3
          rw [← hadd]
          simp only [strNullOrEmpty, Bool.or_eq_true, Option.isNone_iff_eq_none] at h1
          push_neg at h1
          match service, proto with
          | some sv, some pr =>
            unfold serviceExists getServiceItem probeAllPcbs createService
            simp only [List.find?_cons, Option.getD_some]
            have hsv63 : sv.take 63 = sv := List.take_of_length_le (by simpa using hlen1)
            have hpr63 : pr.take 63 = pr := List.take_of_length_le (by simpa using hlen2)
            have hmatch : serviceMatch
                { instName := instN.map (fun i => i.take 63),
                  service := sv.take 63, proto := pr.take 63,
                  hostname := some ((match host with
                    | some h => h
                    | none => (srv.hostname).getD []).take 63),
                  port := port, subtypes := [] } (some sv) (some pr) host = true := by
              unfold serviceMatch
              simp only [hsv63, hpr63, Bool.and_eq_true]
              refine ⟨⟨strcaseEq_refl sv, strcaseEq_refl pr⟩, ?_⟩
              match host with
              | none => simp [strNullOrEmpty]
              | some h =>
                have h63 : h.take 63 = h := List.take_of_length_le (hlen3 h rfl)
                simp [strNullOrEmpty, strcaseEqOpt, h63, strcaseEq_refl]
            rw [hmatch]
            simp
          | none, _ =>
            exfalso
            rcases h1 with ⟨⟨hne, _⟩, _⟩
            simp [strNullOrEmpty] at hne
          | some _, none =>
            exfalso
            rcases h1 with ⟨⟨_, hne⟩, _⟩
            simp [strNullOrEmpty] at hne
  · intro srv instN service proto host out hrem hok hhost hcount
    simp only [serviceRemoveForHost] at hrem
    split at hrem
    · rw [← hrem] at hok
      simp at hok
    · split at hrem
      · rw [← hrem] at hok
        simp at hok
      · rename_i h1 i hfind
        rw [← hrem]
        have himp : ∀ x ∈ srv.services,
            serviceNodeMatch srv instN service proto (resolveHostname srv host) x = true →
            serviceMatch x service proto host = true := by
          intro x hx hpx
          have hxh := hhost x hx
          cases instN with
          | some iv =>
            have hm := matchInstance_implies_match srv x (some iv) service proto _ hxh
              (by simpa [serviceNodeMatch] using hpx)
            cases host with
            | some h => simpa [resolveHostname] using hm
            | none =>
              apply match_weaken_hostname x service proto srv.hostname
              simpa [resolveHostname] using hm
          | none =>
            have hm : serviceMatch x service proto (resolveHostname srv host) = true := by
              simpa [serviceNodeMatch] using hpx
            cases host with
            | some h => simpa [resolveHostname] using hm
            | none =>
              apply match_weaken_hostname x service proto srv.hostname
              simpa [resolveHostname] using hm
        have hnone : List.find? (fun s => serviceMatch s service proto host)
            (srv.services.eraseIdx i) = none := by
          rw [List.find?_eq_none]
          intro y hy
          have herase := findMatch_erase_no_match
            (serviceNodeMatch srv instN service proto (resolveHostname srv host))
            (fun s => serviceMatch s service proto host)
            srv.services i hfind himp hcount y hy
          simp [herase]
        simp [serviceExists, getServiceItem, hnone]

/-- Witness for C4 (amended): add `inst._s._t` on host `h`, observe it
exists, remove it, observe it no longer exists. -/
theorem C4_witness :
    serviceExists (serviceAddForHost ⟨some ['h'], none, [], [], []⟩ (some ['a'])
        (some ['s']) (some ['t']) none 80).2 (some ['s']) (some ['t']) none = true ∧
    serviceExists (serviceRemoveForHost (serviceAddForHost
        ⟨some ['h'], none, [], [], []⟩ (some ['a']) (some ['s']) (some ['t']) none 80).2
        (some ['a']) (some ['s']) (some ['t']) none).2.1
      (some ['s']) (some ['t']) none = false :=
  ⟨C4_add_remove_exists.1 ⟨some ['h'], none, [], [], []⟩ (some ['a']) (some ['s'])
      (some ['t']) none 80 _ rfl rfl (by decide) (by decide)
      (fun h hh => by cases hh),
    C4_add_remove_exists.2 (serviceAddForHost ⟨some ['h'], none, [], [], []⟩
        (some ['a']) (some ['s']) (some ['t']) none 80).2
      (some ['a']) (some ['s']) (some ['t']) none _ rfl (by decide)
      (by decide) (by decide)⟩

/-! ## C9: service removal dispatches a TTL=0 goodbye PTR immediately -/

/-- **C9**: when `service_remove` succeeds on a registered service while the
hostname is set and some ready PCB is `RUNNING`, every transmission the
removal produces is dispatched immediately (none is placed in the scheduled
tx queue), and among them is a packet whose answers carry a goodbye PTR for
the removed service — `bye = true`, serialized with TTL 0 by
`_mdns_append_ptr_record`. -/
theorem C9_remove_sends_immediate_goodbye
    (srv : Server) (instN service proto host : Option (List Char))
    (out : EspErr × Server × List TxEffect) (p : Pcb)
    (hrem : serviceRemoveForHost srv instN service proto host = out)
    (hok : out.1 = EspErr.ok)
    (hhn : strNullOrEmpty srv.hostname = false)
    (hp : p ∈ srv.pcbs) (hready : p.ready = true) (hrunning : p.state = PcbState.running) :
    (∀ e ∈ out.2.2, ∃ ans, e = TxEffect.dispatched ans) ∧
      (∃ i ans, TxEffect.dispatched ans ∈ out.2.2 ∧
        { atype := MDNS_TYPE_PTR, svcIdx := some i, hostRef := none,
          flush := true, bye := true : OutAnswer } ∈ ans ∧
        ptrRecordTtl true = 0) := by
  simp only [serviceRemoveForHost] at hrem
  split at hrem
  · rw [← hrem] at hok
    simp at hok
  · split at hrem
    · rw [← hrem] at hok
      simp at hok
    · rename_i h1 i hfind
      rw [← hrem]
      have heff : sendBye srv [i] =
          (srv.pcbs.filter fun q => q.ready && q.state == PcbState.running).map
            (fun _ => TxEffect.dispatched
              [{ atype := MDNS_TYPE_PTR, svcIdx := some i, hostRef := none,
                 flush := true, bye := true }]) := by
        unfold sendBye
        rw [if_neg (by simp [hhn])]
        rfl
      constructor
      · intro e he
        simp only [heff] at he
        rcases List.mem_map.mp he with ⟨q, _, hq⟩
        exact ⟨_, hq.symm⟩
      · have hmem : TxEffect.dispatched
            [{ atype := MDNS_TYPE_PTR, svcIdx := some i, hostRef := none,
                flush := true, bye := true }] ∈ sendBye srv [i] := by
          rw [heff]
          apply List.mem_map_of_mem
          rw [List.mem_filter]
          exact ⟨hp, by simp [hready, hrunning]⟩
        exact ⟨i, _, hmem, by simp, rfl⟩

/-- Witness for C9: removing the single registered service of a server with
one ready `RUNNING` PCB. -/
theorem C9_witness :
    (∀ e ∈ (serviceRemoveForHost
        ⟨some ['h'], none, [⟨some ['a'], ['s'], ['t'], some ['h'], 80, []⟩], [],
          [⟨true, PcbState.running⟩]⟩
        (some ['a']) (some ['s']) (some ['t']) none).2.2,
      ∃ ans, e = TxEffect.dispatched ans) ∧
      (∃ i ans, TxEffect.dispatched ans ∈ (serviceRemoveForHost
          ⟨some ['h'], none, [⟨some ['a'], ['s'], ['t'], some ['h'], 80, []⟩], [],
            [⟨true, PcbState.running⟩]⟩
          (some ['a']) (some ['s']) (some ['t']) none).2.2 ∧
        { atype := MDNS_TYPE_PTR, svcIdx := some i, hostRef := none,
          flush := true, bye := true : OutAnswer } ∈ ans ∧
        ptrRecordTtl true = 0) :=
  C9_remove_sends_immediate_goodbye
    ⟨some ['h'], none, [⟨some ['a'], ['s'], ['t'], some ['h'], 80, []⟩], [],
      [⟨true, PcbState.running⟩]⟩
    (some ['a']) (some ['s']) (some ['t']) none _ ⟨true, PcbState.running⟩
    rfl (by decide) (by decide) (by simp) rfl rfl

/-! ## C1: compression pointers point strictly backward; the decoder rejects
forward pointers -/

/-- The compression search only ever returns offsets inside the
already-written part of the packet. -/
theorem findFqdnLocGo_lt (packet : List Nat) (plen len : Nat)
    (strings : List (List Nat)) :
    ∀ (rem p q : Nat), findFqdnLocGo packet plen len strings rem p = some q →
      q < packet.length := by
  intro rem
  induction rem with
  | zero =>
    intro p q h
    simp [findFqdnLocGo] at h
  | succ n ih =>
    intro p q h
    unfold findFqdnLocGo at h
    split at h
    · split at h
      · rename_i hp _
        cases h
        exact hp
      · exact ih _ _ h
    · exact absurd h (by simp)

theorem findFqdnLoc_lt (packet : List Nat) (plen len : Nat)
    (strings : List (List Nat)) (p : Nat)
    (h : findFqdnLoc packet plen len strings = some p) : p < packet.length :=
  findFqdnLocGo_lt packet plen len strings packet.length 0 p h

/-- Every compression pointer `_mdns_append_fqdn` emits targets an offset
strictly smaller than the index it is written at. -/
theorem appendFqdn_backward :
    ∀ (strings : List (List Nat)) (packet : List Nat) (plen : Nat),
      ∀ pr ∈ (appendFqdn packet strings plen).2.1, pr.2 < pr.1 := by
  intro strings
  induction strings with
  | nil =>
    intro packet plen pr hpr
    simp [appendFqdn] at hpr
  | cons s rest ih =>
    intro packet plen pr hpr
    simp only [appendFqdn] at hpr
    split at hpr
    · rename_i p hfind
      split at hpr
      · simp at hpr
      · simp only [List.mem_singleton] at hpr
        subst hpr
        exact findFqdnLoc_lt packet plen (s.length % 256) (s :: rest) p hfind
    · split at hpr
      · simp at hpr
      · exact ih _ plen pr hpr

/-- **C1**: compression pointers always point strictly backward.  Encoder:
every pointer `_mdns_append_fqdn` emits (ghost-logged as
(write index, target offset) pairs) references an offset strictly smaller
than the index it is written at.  Decoder: `_mdns_read_fqdn` fails on any
compression pointer whose target offset is at or past the pointer's own
location (the source check `packet + address >= start` is even stricter, the
name's start); `readFqdnAux` is defined by well-founded recursion on the
strictly decreasing pointer target, so decoding always terminates. -/
theorem C1_compression_pointer_safety :
    (∀ (packet : List Nat) (strings : List (List Nat)) (plen : Nat),
      ∀ pr ∈ (appendFqdn packet strings plen).2.1, pr.2 < pr.1) ∧
    (∀ (packet : List Nat) (plen startOff idx : Nat) (name : MdnsName),
      startOff + idx < plen →
      192 ≤ byteAt packet (startOff + idx) →
      startOff + idx ≤ (((byteAt packet (startOff + idx)) &&& 63) <<< 8) |||
        byteAt packet (startOff + idx + 1) →
      readFqdnAux packet plen startOff idx name = none) := by
  constructor
  · exact fun packet strings plen => appendFqdn_backward strings packet plen
  · intro packet plen startOff idx name h1 h2 h3
    have hb : byteAt packet (startOff + idx) ≠ 0 := by omega
    have hlt : ¬ (byteAt packet (startOff + idx) < 192) := by omega
    have hback : startOff ≤ (((byteAt packet (startOff + idx)) &&& 63) <<< 8) |||
        byteAt packet (startOff + idx + 1) := by omega
    rw [readFqdnAux.eq_def]
    rw [dif_pos ⟨h1, hb⟩]
    simp only [if_neg hlt, if_pos hback]

/-- A concrete decode: the packet `01 61 00` (label `a`, terminator) reads
into a one-part name. -/
theorem readFqdn_eval1 :
    readFqdnAux [1, 97, 0] 1460 0 0 emptyMdnsName =
      some (3, { emptyMdnsName with host := [97], parts := 1 }) := by
  rw [readFqdnAux.eq_def]
  norm_num [byteAt, readLabel, applyLabel, setNamePart, caseEqBytes, lowerByte,
    subBytes, localBytes, arpaBytes, ip6Bytes, inAddrBytes, strlcat64, emptyMdnsName]
  rw [readFqdnAux.eq_def]
  norm_num [byteAt, emptyMdnsName]
  decide

/-- A concrete encode: appending the name `a` to a packet that already
contains its encoding emits the compression pointer `C0 00` at write
index 3, targeting offset 0. -/
theorem appendFqdn_eval1 :
    appendFqdn [1, 97, 0] [[97]] 1460 = ([1, 97, 0, 192, 0], [(3, 0)], 2) := by
  have h := readFqdn_eval1
  simp [emptyMdnsName] at h
  simp [appendFqdn, findFqdnLoc, findFqdnLocGo, memEqAt, fqdnReadMatches, byteAt,
    nameFieldAt, caseEqBytes, lowerByte, appendU16, appendU8, appendString,
    MDNS_NAME_REF, MDNS_MAX_PACKET_SIZE, h, emptyMdnsName]
  decide

/-- Witness for C1: the concrete pointer above points backward (0 < 3), and
decoding a packet that opens with a pointer to its own location fails. -/
theorem C1_witness :
    (0 : Nat) < 3 ∧ readFqdnAux [192, 5] 2 0 0 emptyMdnsName = none :=
  ⟨C1_compression_pointer_safety.1 [1, 97, 0] [[97]] 1460 (3, 0)
      (by rw [appendFqdn_eval1]; simp),
    C1_compression_pointer_safety.2 [192, 5] 2 0 0 emptyMdnsName (by decide)
      (by decide) (by decide)⟩

/-! ## C3: known-answer suppression -/

/-- **C3**: for a received PTR query about a service the responder owns, if
the same packet's records already contain a PTR naming that service's
instance with TTL greater than half the default PTR TTL (2250 of 4500), the
responder drops the planned PTR answer and — the question being the only
one — enqueues no response at all; with no such record in the packet, a
response is built. -/
theorem C3_known_answer_suppression
    (srv : Server) (s : MService) (q : ParsedQuestion) (r : ParsedRecord)
    (probe : Bool) (srcPort shareStep : Nat)
    (hsrv : srv.services = [s])
    (hinst : s.instName.isSome = true)
    (hq : q.qtype = MDNS_TYPE_PTR) (hqsub : q.sub = false) (hqhost : q.host = none)
    (hqs : q.service.isSome = true) (hqp : q.proto.isSome = true)
    (hmatchq : serviceMatch s q.service q.proto none = true)
    (hrh : r.host = s.instName)
    (hrm : serviceMatchInstance srv s r.host r.service r.proto none = true)
    (httl : MDNS_ANSWER_PTR_TTL / 2 < r.ttl) :
    createAnswerFromParsedPacket srv
        { questions := [q], records := [r], probe := probe, srcPort := srcPort }
        shareStep = none ∧
      (createAnswerFromParsedPacket srv
        { questions := [q], records := [], probe := probe, srcPort := srcPort }
        shareStep).isSome = true := by
  rcases Option.isSome_iff_exists.mp hinst with ⟨inst, hinstEq⟩
  have hsat : recordSatisfies srv s r = true := by
    unfold recordSatisfies
    rw [hinstEq, hrh, hinstEq]
    simp only [Bool.and_eq_true, decide_eq_true_eq]
    refine ⟨?_, httl⟩
    rw [hrh, hinstEq] at hrm
    exact hrm
  have hmatchPtr : matchPtrQuestion srv s q = true := by
    unfold matchPtrQuestion
    rw [hmatchq, hqsub, hqhost]
    simp
  have hnotSrvTxt : (q.qtype == MDNS_TYPE_SRV || q.qtype == MDNS_TYPE_TXT) = false := by
    rw [hq]
    rfl
  have hsp : (q.service.isSome && q.proto.isSome) = true := by
    rw [hqs, hqp]
    rfl
  have hcafsNums : ∀ (st : BuildState) (sIdx : Nat) (qt : Nat) (sh fl : Bool),
      (createAnswerFromService srv st sIdx s qt sh fl).outRecordNums =
        st.outRecordNums := by
    intro st sIdx qt sh fl
    simp only [createAnswerFromService]
    repeat' split
    all_goals rfl
  constructor
  · have hstep : (answerQuestionStep srv
        { questions := [q], records := [r], probe := probe, srcPort := srcPort }
        (srcPort == MDNS_SERVICE_PORT) emptyBuildState q).outRecordNums = 0 := by
      unfold answerQuestionStep
      rw [hnotSrvTxt]
      simp only [Bool.false_eq_true, if_false, hsp, if_true, hsrv]
      simp only [List.enum, List.enumFrom, List.foldl_cons, List.foldl_nil]
      simp only [hmatchPtr, hsat, List.any_cons, List.any_nil, Bool.true_or,
        Bool.or_false, eq_self_iff_true, if_true]
      split <;> split <;> rfl
    unfold createAnswerFromParsedPacket
    rw [if_neg (by simp)]
    simp only [List.foldl_cons, List.foldl_nil, hstep]
    simp
  · have hstep : (answerQuestionStep srv
        { questions := [q], records := [], probe := probe, srcPort := srcPort }
        (srcPort == MDNS_SERVICE_PORT) emptyBuildState q).outRecordNums = 1 := by
      unfold answerQuestionStep
      rw [hnotSrvTxt]
      simp only [Bool.false_eq_true, if_false, hsp, if_true, hsrv]
      simp only [List.enum, List.enumFrom, List.foldl_cons, List.foldl_nil]
      simp only [hmatchPtr, List.any_nil, Bool.false_eq_true, eq_self_iff_true,
        if_true, if_false]
      split <;> split <;> simp [hcafsNums, emptyBuildState]
    unfold createAnswerFromParsedPacket
    rw [if_neg (by simp)]
    simp only [List.foldl_cons, List.foldl_nil, hstep]
    split
    · rename_i hcontra
      exact absurd hcontra (by decide)
    · split <;> simp

/-- Witness for C3: service `foo._http._tcp` is registered; a PTR query for
`_http._tcp` arrives whose answer section already holds a PTR to
`foo._http._tcp` with TTL 4500 > 2250: nothing is enqueued; without that
record, a response is built. -/
theorem C3_witness :
    createAnswerFromParsedPacket
        ⟨some ['h'], none,
          [⟨some ['f', 'o', 'o'], ['_', 'h'], ['_', 't'], some ['h'], 80, []⟩], [], []⟩
        { questions := [⟨MDNS_TYPE_PTR, false, false, none, some ['_', 'h'],
            some ['_', 't']⟩],
          records := [⟨some ['f', 'o', 'o'], some ['_', 'h'], some ['_', 't'], 4500⟩],
          probe := false, srcPort := 5353 }
        0 = none ∧
      (createAnswerFromParsedPacket
        ⟨some ['h'], none,
          [⟨some ['f', 'o', 'o'], ['_', 'h'], ['_', 't'], some ['h'], 80, []⟩], [], []⟩
        { questions := [⟨MDNS_TYPE_PTR, false, false, none, some ['_', 'h'],
            some ['_', 't']⟩],
          records := [], probe := false, srcPort := 5353 }
        0).isSome = true :=
  C3_known_answer_suppression
    ⟨some ['h'], none,
      [⟨some ['f', 'o', 'o'], ['_', 'h'], ['_', 't'], some ['h'], 80, []⟩], [], []⟩
    ⟨some ['f', 'o', 'o'], ['_', 'h'], ['_', 't'], some ['h'], 80, []⟩
    ⟨MDNS_TYPE_PTR, false, false, none, some ['_', 'h'], some ['_', 't']⟩
    ⟨some ['f', 'o', 'o'], some ['_', 'h'], some ['_', 't'], 4500⟩
    false 5353 0 rfl rfl rfl rfl rfl rfl rfl (by decide) rfl (by decide) (by decide)

/-! ## C2: a PCB enters RUNNING only after PROBE_3 -/

/-- Counterexample for **C2**: enabling a PCB while the hostname is unset
(the state of a freshly initialized server — `mdns_init` enables ready
interfaces before any `mdns_hostname_set`) puts it into `RUNNING` in one
step, without ever visiting `PROBE_3` (`_mdns_init_pcb_probe`,
lines 2320-2323). -/
theorem C2_counterexample :
    pcbRun PcbState.off [PcbEvent.enable false true] = PcbState.running ∧
      (pcbTrace PcbState.off [PcbEvent.enable false true]).contains
        PcbState.probe3 = false := by
  constructor
  · rfl
  · rfl

/-- A step allowed by the amended C2 lands in the announce/running phase
only from that phase or from `PROBE_3`. -/
theorem pcbStep_post (s : PcbState) (e : PcbEvent)
    (hg : probeRespectingEvent e = true) (hp : isPost (pcbStep s e) = true) :
    isPost s = true ∨ s = PcbState.probe3 := by
  revert hg hp
  revert s e
  decide

theorem pcbRun_post :
    ∀ (es : List PcbEvent) (s : PcbState), es.all probeRespectingEvent = true →
      isPost (pcbRun s es) = true →
      isPost s = true ∨ PcbState.probe3 ∈ pcbTrace s es := by
  intro es
  induction es with
  | nil =>
    intro s _ hrun
    exact Or.inl hrun
  | cons e es ih =>
    intro s hall hrun
    rw [List.all_cons, Bool.and_eq_true] at hall
    have hrun2 : isPost (pcbRun (pcbStep s e) es) = true := hrun
    rcases ih (pcbStep s e) hall.2 hrun2 with hpost | hmem
    · rcases pcbStep_post s e hall.1 hpost with hpost2 | heq
      · exact Or.inl hpost2
      · right
        rw [heq]
        simp [pcbTrace]
    · right
      simp [pcbTrace]
      right
      exact hmem

/-- **C2 (amended)**: as long as the hostname stays set and no service
removal fires the probing shortcut, a PCB starting from `OFF` reaches
`RUNNING` only having been in `PROBE_3` earlier: the probe sequence cannot
be skipped.  (As stated — over all enable/probe/receive steps — the claim is
false: see the counterexample, and likewise the probing shortcut of
`_mdns_remove_scheduled_service_packets`, lines 2813-2820.) -/
theorem C2_running_after_probe3
    (es : List PcbEvent) (hall : es.all probeRespectingEvent = true)
    (hrun : pcbRun PcbState.off es = PcbState.running) :
    PcbState.probe3 ∈ pcbTrace PcbState.off es := by
  have hpost : isPost (pcbRun PcbState.off es) = true := by
    rw [hrun]
    rfl
  rcases pcbRun_post es PcbState.off hall hpost with hoff | hmem
  · exact absurd hoff (by decide)
  · exact hmem

/-- Witness for C2 (amended): the full happy path — enable, three probes,
three announcements — reaches `RUNNING` with `PROBE_3` in the trace. -/
theorem C2_witness :
    PcbState.probe3 ∈ pcbTrace PcbState.off
      [PcbEvent.enable true true, PcbEvent.txHandle true, PcbEvent.txHandle true,
        PcbEvent.txHandle true, PcbEvent.txHandle true, PcbEvent.txHandle true,
        PcbEvent.txHandle true] :=
  C2_running_after_probe3
    [PcbEvent.enable true true, PcbEvent.txHandle true, PcbEvent.txHandle true,
      PcbEvent.txHandle true, PcbEvent.txHandle true, PcbEvent.txHandle true,
      PcbEvent.txHandle true] (by decide) (by decide)

end Mdns
